import Mathlib

/-!
# STM32 I2C master driver (`drivers/i2c/stm32-i2c.c`)

A shallow embedding of the driver's timing configurator (`stm32_i2c_set_freq`),
transfer engine (`stm32_i2c_transfer` and its helpers) and control dispatch
(`stm32_i2c_ioctl`).

Modelling conventions

* Register access goes through `read32` / `write32`.  Every access is appended
  to a trace of events.  The value returned by the n-th register read is taken
  from an arbitrary input stream, so a statement quantified over all worlds
  covers every behaviour of the hardware.
* `uint32_t` / `unsigned` values are naturals reduced modulo `2 ^ 32` where the
  C code can wrap.  `int` / `ssize_t` results are integers.
* Unsigned division by zero is undefined in C; it ends the run with
  `Outcome.trap`.  The transmit-empty busy wait is bounded by a fuel argument
  and ends the run with `Outcome.spin` when the bound is exhausted.
* `kprintf` only produces console output and is left out.
* Constants of `phabos/i2c.h` and `errno.h`, which are not part of the source
  tree at hand, are fields of `Config`.
-/

namespace Stm32I2c

/-! ## Register block -/

/-- Registers of the I2C block (`#define I2C_CR1 0x00` ... `I2C_FLTR 0x24`). -/
inductive Reg
  | CR1 | CR2 | OAR1 | OAR2 | DR | SR1 | SR2 | CCR | TRISE | FLTR
  deriving DecidableEq, Repr

/-- Byte offset of a register from `device->reg_base`. -/
def Reg.offset : Reg → Nat
  | .CR1 => 0x00
  | .CR2 => 0x04
  | .OAR1 => 0x08
  | .OAR2 => 0x0c
  | .DR => 0x10
  | .SR1 => 0x14
  | .SR2 => 0x18
  | .CCR => 0x1c
  | .TRISE => 0x20
  | .FLTR => 0x24

def I2C_CR1_PE : Nat := 1 <<< 0
def I2C_CR1_START : Nat := 1 <<< 8
def I2C_CR1_STOP : Nat := 1 <<< 9

def I2C_CR2_ITERREN : Nat := 1 <<< 8
def I2C_CR2_ITEVTEN : Nat := 1 <<< 9

def I2C_SR1_SB : Nat := 1 <<< 0
def I2C_SR1_ADDR : Nat := 1 <<< 1
def I2C_SR1_BTF : Nat := 1 <<< 2
def I2C_SR1_RXE : Nat := 1 <<< 6
def I2C_SR1_TXE : Nat := 1 <<< 7
def I2C_SR1_BERR : Nat := 1 <<< 8
def I2C_SR1_ARLO : Nat := 1 <<< 9
def I2C_SR1_AF : Nat := 1 <<< 10
def I2C_SR1_OVR : Nat := 1 <<< 11
def I2C_SR1_PECERR : Nat := 1 <<< 12
def I2C_SR1_TIMEOUT : Nat := 1 <<< 14

def I2C_CCR_DUTY : Nat := 1 <<< 14
def I2C_CCR_STDMODE : Nat := 0 <<< 15
def I2C_CCR_FASTMODE : Nat := 1 <<< 15

def ONE_MHZ : Nat := 1000000

def I2C_FASTMODE_INVT : Nat := 3333333
def I2C_STDMODE_INVT : Nat := 1000000

def SR1_ERROR_MASK : Nat :=
  I2C_SR1_TIMEOUT ||| I2C_SR1_AF ||| I2C_SR1_PECERR |||
    I2C_SR1_OVR ||| I2C_SR1_ARLO ||| I2C_SR1_BERR

/-- Constants the driver takes from headers outside the source tree
(`phabos/i2c.h`, `errno.h`). -/
structure Config where
  I2C_STDMODE_MAX_FREQ : Nat
  I2C_FASTMODE_MAX_FREQ : Nat
  I2C_M_READ : Nat
  I2C_TRANSFER : Nat
  I2C_SET_FREQUENCY : Nat
  EINVAL : Nat
  EIO : Nat

/-- The usual values: 100 kHz and 400 kHz ceilings, read flag 1, errno 22 and 5.
Only used to instantiate general statements at concrete inputs. -/
def stdConfig : Config where
  I2C_STDMODE_MAX_FREQ := 100000
  I2C_FASTMODE_MAX_FREQ := 400000
  I2C_M_READ := 1
  I2C_TRANSFER := 0
  I2C_SET_FREQUENCY := 1
  EINVAL := 22
  EIO := 5

/-- Platform data of one controller (`struct stm32_i2c_adapter_platform`). -/
structure stm32_i2c_adapter_platform where
  evt_irq : Nat
  err_irq : Nat
  clk : Nat

/-- The board's controller: `stm32_i2c_pdata` of `board-bdb1b.c`,
`.clk = APB1_FREQ` with `#define APB1_FREQ 42000000`. -/
def stm32_i2c_pdata : stm32_i2c_adapter_platform where
  evt_irq := 0
  err_irq := 0
  clk := 42000000

/-! ## Execution model -/

/-- What the driver does to the outside, in program order. -/
inductive Event
  | read32 (r : Reg) (v : Nat)
  | write32 (r : Reg) (v : Nat)
  | load (addr : Nat) (v : Nat)
  | store (addr : Nat) (v : Nat)
  | mutex_lock
  | mutex_unlock
  | irq_disable
  | irq_enable
  deriving DecidableEq, Repr

/-- The machine around the driver. `input n` is the value the hardware returns
on the n-th register read, `reads` counts the reads made so far, `mem` is the
byte memory holding the message buffers, `trace` lists the events so far. -/
structure World where
  input : Nat → Nat
  reads : Nat
  mem : Nat → Nat
  trace : List Event

/-- How a run ends: a normal return, undefined behaviour (division by zero), or
a busy wait that outlasted its bound. -/
inductive Outcome (α : Type)
  | ret (a : α) (w : World)
  | trap (w : World)
  | spin (w : World)

/-- World at the end of a run. -/
def Outcome.world {α : Type} : Outcome α → World
  | .ret _ w => w
  | .trap w => w
  | .spin w => w

/-- Returned value of a run that returned. -/
def Outcome.value {α : Type} : Outcome α → Option α
  | .ret a _ => some a
  | .trap _ => none
  | .spin _ => none

/-- Driver computations. -/
def Drv (α : Type) : Type := World → Outcome α

def Drv.pure {α : Type} (a : α) : Drv α := fun w => .ret a w

def Drv.bind {α β : Type} (m : Drv α) (f : α → Drv β) : Drv β := fun w =>
  match m w with
  | .ret a w1 => f a w1
  | .trap w1 => .trap w1
  | .spin w1 => .spin w1

instance : Monad Drv where
  pure := Drv.pure
  bind := Drv.bind

/-- Append one event to the trace. -/
def emit (e : Event) : Drv Unit := fun w =>
  .ret () { w with trace := w.trace ++ [e] }

/-- Register read, `read32(device->reg_base + r)`. -/
def read32 (r : Reg) : Drv Nat := fun w =>
  .ret (w.input w.reads % 2 ^ 32)
    { w with reads := w.reads + 1,
             trace := w.trace ++ [Event.read32 r (w.input w.reads % 2 ^ 32)] }

/-- Register write, `write32(device->reg_base + r, v)`. -/
def write32 (r : Reg) (v : Nat) : Drv Unit :=
  emit (Event.write32 r (v % 2 ^ 32))

/-- `uint32_t` division; a zero divisor is undefined behaviour. -/
def udiv32 (a b : Nat) : Drv Nat := fun w =>
  if b % 2 ^ 32 = 0 then .trap w else .ret ((a % 2 ^ 32) / (b % 2 ^ 32)) w

def mutex_lock : Drv Unit := emit Event.mutex_lock
def mutex_unlock : Drv Unit := emit Event.mutex_unlock
def irq_disable : Drv Unit := emit Event.irq_disable
def irq_enable : Drv Unit := emit Event.irq_enable

/-- Register writes of a trace, in order. -/
def writesOf : List Event → List (Reg × Nat)
  | [] => []
  | Event.write32 r v :: es => (r, v) :: writesOf es
  | _ :: es => writesOf es

/-- Register file after replaying the writes of a trace over `regs`. -/
def replay (regs : Reg → Nat) : List Event → Reg → Nat
  | [] => regs
  | Event.write32 r v :: es => replay (fun x => if x = r then v else regs x) es
  | _ :: es => replay regs es

/-! ## Timing configurator -/

/-- `i2c_dump`: reads six registers for the console. -/
def i2c_dump : Drv Unit := do
  let _ ← read32 .CR1
  let _ ← read32 .CR2
  let _ ← read32 .SR1
  let _ ← read32 .SR2
  let _ ← read32 .CCR
  let _ ← read32 .TRISE
  pure ()

/-- `stm32_i2c_set_freq(device, freq)`. The `out:` label is the trailing
restore of CR1, reached both by the `goto` and by falling through. -/
def stm32_i2c_set_freq (c : Config) (pdata : stm32_i2c_adapter_platform)
    (freq : Nat) : Drv Int := do
  let cr1 ← read32 .CR1
  write32 .CR1 0
  if freq > c.I2C_FASTMODE_MAX_FREQ then
    write32 .CR1 cr1
    pure (-(c.EINVAL : Int))
  else
    let speed :=
      if freq > c.I2C_STDMODE_MAX_FREQ then I2C_CCR_FASTMODE else I2C_CCR_STDMODE
    let ccr ←
      if (decide (freq = c.I2C_FASTMODE_MAX_FREQ) && false) = true then do
        let q ← udiv32 pdata.clk (freq * 25)
        pure (q ||| I2C_CCR_DUTY)
      else
        udiv32 pdata.clk (freq * 3)
    write32 .CCR (speed ||| ccr)
    let trise :=
      if freq > c.I2C_FASTMODE_MAX_FREQ then
        (pdata.clk % 2 ^ 32) / I2C_FASTMODE_INVT + 1
      else
        (pdata.clk % 2 ^ 32) / I2C_STDMODE_INVT + 1
    write32 .TRISE trise
    write32 .CR1 cr1
    pure 0

/-! ## Transfer engine -/

/-- One message (`struct i2c_msg`): 16-bit target address field, flags, pointer
to the caller's byte buffer, and length. The message descriptors are kept apart
from the byte memory the buffers live in. -/
structure i2c_msg where
  addr : Nat
  flags : Nat
  buffer : Nat
  length : Nat

/-- Byte load from a message buffer, `msg->buffer[i]` as an rvalue. -/
def load8 (a : Nat) : Drv Nat := fun w =>
  .ret (w.mem a % 256) { w with trace := w.trace ++ [Event.load a (w.mem a % 256)] }

/-- Byte store to a message buffer, `msg->buffer[i] = v`. -/
def store8 (a v : Nat) : Drv Unit := fun w =>
  .ret () { w with mem := fun x => if x = a then v % 256 else w.mem x,
                   trace := w.trace ++ [Event.store a (v % 256)] }

/-- `stm32_i2c_generate_start_condition`. -/
def stm32_i2c_generate_start_condition (c : Config) : Drv Int := do
  write32 .CR1 (I2C_CR1_PE ||| I2C_CR1_START)
  let sr1 ← read32 .SR1
  if sr1 &&& SR1_ERROR_MASK ≠ 0 then
    pure (-(c.EIO : Int))
  else
    pure 0

/-- `stm32_i2c_generate_stop_condition`. -/
def stm32_i2c_generate_stop_condition : Drv Unit :=
  write32 .CR1 (I2C_CR1_PE ||| I2C_CR1_STOP)

/-- `stm32_i2c_send_rx_address`; `addr` is a `uint16_t`. -/
def stm32_i2c_send_rx_address (c : Config) (addr : Nat) : Drv Int := do
  write32 .DR (((addr % 2 ^ 16) <<< 1) ||| 1)
  let sr1 ← read32 .SR1
  if sr1 &&& SR1_ERROR_MASK ≠ 0 then
    pure (-(c.EIO : Int))
  else
    let _ ← read32 .SR2
    pure 0

/-- `stm32_i2c_send_tx_address`; `addr` is a `uint16_t`. -/
def stm32_i2c_send_tx_address (c : Config) (addr : Nat) : Drv Int := do
  write32 .DR ((addr % 2 ^ 16) <<< 1)
  let sr1 ← read32 .SR1
  if sr1 &&& SR1_ERROR_MASK ≠ 0 then
    pure (-(c.EIO : Int))
  else
    let _ ← read32 .SR2
    pure 0

/-- The byte loop of `stm32_i2c_recv`: `n` iterations left, index `i`. -/
def recv_loop (msg : i2c_msg) : Nat → Nat → Drv Unit
  | 0, _ => pure ()
  | n + 1, i => do
    let v ← read32 .DR
    store8 (msg.buffer + i) v
    recv_loop msg n (i + 1)

/-- `stm32_i2c_recv`. -/
def stm32_i2c_recv (c : Config) (msg : i2c_msg) : Drv Int := do
  let retval ← stm32_i2c_send_rx_address c msg.addr
  if retval ≠ 0 then
    pure retval
  else
    recv_loop msg msg.length 0
    pure 0

/-- The busy wait `while (!(read32(SR1) & I2C_SR1_TXE)) {}`, at most `fuel`
polls. -/
def wait_txe : Nat → Drv Unit
  | 0 => fun w => .spin w
  | fuel + 1 => do
    let sr1 ← read32 .SR1
    if sr1 &&& I2C_SR1_TXE ≠ 0 then
      pure ()
    else
      wait_txe fuel

/-- The byte loop of `stm32_i2c_send`: `n` iterations left, index `i`. -/
def send_loop (fuel : Nat) (msg : i2c_msg) : Nat → Nat → Drv Unit
  | 0, _ => pure ()
  | n + 1, i => do
    wait_txe fuel
    let b ← load8 (msg.buffer + i)
    write32 .DR b
    send_loop fuel msg n (i + 1)

/-- `stm32_i2c_send`. -/
def stm32_i2c_send (c : Config) (fuel : Nat) (msg : i2c_msg) : Drv Int := do
  irq_disable
  let retval ← stm32_i2c_send_tx_address c msg.addr
  if retval ≠ 0 then
    pure retval
  else
    i2c_dump
    send_loop fuel msg msg.length 0
    irq_enable
    pure 0

/-- The message loop of `stm32_i2c_transfer`: `n` messages left, index `i`.
The value is `retval` at loop exit. -/
def transfer_loop (c : Config) (fuel : Nat) (msg : Nat → i2c_msg) :
    Nat → Nat → Drv Int
  | 0, _ => pure 0
  | n + 1, i => do
    let retval ← stm32_i2c_generate_start_condition c
    if retval ≠ 0 then
      pure retval
    else
      let retval ←
        if (msg i).flags &&& c.I2C_M_READ ≠ 0 then
          stm32_i2c_recv c (msg i)
        else
          stm32_i2c_send c fuel (msg i)
      if retval ≠ 0 then
        pure retval
      else
        transfer_loop c fuel msg n (i + 1)

/-- `stm32_i2c_transfer(device, msg, count)`. -/
def stm32_i2c_transfer (c : Config) (fuel : Nat) (msg : Nat → i2c_msg)
    (count : Nat) : Drv Int :=
  if count = 0 then
    pure 0
  else do
    i2c_dump
    mutex_lock
    let retval ← transfer_loop c fuel msg count 0
    i2c_dump
    stm32_i2c_generate_stop_condition
    mutex_unlock
    pure retval

/-! ## Control dispatch -/

/-- One variadic argument of `stm32_i2c_ioctl`. -/
inductive va_item
  | ptr (msg : Nat → i2c_msg)
  | word (n : Nat)

/-- The device behind an open file, as `devnum_get_device(file->inode->dev)`
finds it. -/
structure file where
  pdata : stm32_i2c_adapter_platform

/-- `stm32_i2c_ioctl(file, cmd, vl)`. The device lookup dereferences `file`
before the `RET_IF_FAIL(file, -EINVAL)` check, so a null `file` is undefined
behaviour and the check never fires; so is a `va_arg` that does not match the
arguments passed. -/
def stm32_i2c_ioctl (c : Config) (fuel : Nat) (f : Option file) (cmd : Nat)
    (vl : List va_item) : Drv Int :=
  match f with
  | none => fun w => .trap w
  | some fl => do
    let _retval ←
      if cmd = c.I2C_TRANSFER then
        match vl with
        | va_item.ptr msg :: va_item.word msg_count :: _ =>
          stm32_i2c_transfer c fuel msg (msg_count % 2 ^ 32)
        | _ => fun w => .trap w
      else if cmd = c.I2C_SET_FREQUENCY then
        match vl with
        | va_item.word freq :: _ => stm32_i2c_set_freq c fl.pdata (freq % 2 ^ 32)
        | _ => fun w => .trap w
      else
        pure (-(c.EINVAL : Int))
    pure 0

/-- A world with an empty trace whose reads return the values of `f`. -/
def World.init (f : Nat → Nat) : World where
  input := f
  reads := 0
  mem := fun _ => 0
  trace := []

/-- The six read events of one `i2c_dump` that starts at read number `r`. -/
def dumpEvents (input : Nat → Nat) (r : Nat) : List Event :=
  [Event.read32 .CR1 (input r % 2 ^ 32),
   Event.read32 .CR2 (input (r + 1) % 2 ^ 32),
   Event.read32 .SR1 (input (r + 2) % 2 ^ 32),
   Event.read32 .SR2 (input (r + 3) % 2 ^ 32),
   Event.read32 .CCR (input (r + 4) % 2 ^ 32),
   Event.read32 .TRISE (input (r + 5) % 2 ^ 32)]

/-- Bit positions of `SR1_ERROR_MASK`: TIMEOUT, PECERR, OVR, AF, ARLO, BERR. -/
def errorBits : List Nat := [14, 12, 11, 10, 9, 8]

/-- Lock events: acquire and release of the adapter mutex. -/
def isLock : Event → Bool
  | .mutex_lock => true
  | .mutex_unlock => true
  | _ => false

/-- Interrupt-mask events. -/
def isIrq : Event → Bool
  | .irq_disable => true
  | .irq_enable => true
  | _ => false

/-- Register writes. -/
def isWrite : Event → Bool
  | .write32 _ _ => true
  | _ => false

/-- A computation that, however it ends, only appends to the trace, and appends
no event of the class `P`. -/
def Avoids {α : Type} (P : Event → Bool) (m : Drv α) : Prop :=
  ∀ w : World, ∃ es : List Event,
    (m w).world.trace = w.trace ++ es ∧ ∀ e ∈ es, P e = false

/-- An event class that contains no register access and no buffer access. -/
def AccessFree (P : Event → Bool) : Prop :=
  (∀ r v, P (Event.read32 r v) = false) ∧ (∀ r v, P (Event.write32 r v) = false) ∧
  (∀ a v, P (Event.load a v) = false) ∧ (∀ a v, P (Event.store a v) = false)

/-- Events of caller `b` in a trace whose events are tagged with their caller. -/
def eventsOf (b : Bool) (t : List (Bool × Event)) : List Event :=
  (t.filter (fun p => p.1 == b)).map Prod.snd

/-- Tag every event of a list with its caller. -/
def tagged (b : Bool) (es : List Event) : List (Bool × Event) :=
  es.map (fun e => (b, e))

/-- Number of `irq_disable` events in a trace. -/
def disables (es : List Event) : Nat := es.count Event.irq_disable

/-- Number of `irq_enable` events in a trace. -/
def enables (es : List Event) : Nat := es.count Event.irq_enable

/-! ## Stepping lemmas -/

theorem bind_eq {α β : Type} (m : Drv α) (f : α → Drv β) (w : World) :
    (m >>= f) w = match m w with
      | .ret a w1 => f a w1
      | .trap w1 => .trap w1
      | .spin w1 => .spin w1 := rfl

theorem pure_eq {α : Type} (a : α) (w : World) :
    (pure a : Drv α) w = .ret a w := rfl

/-- Three times a non-zero 32-bit value is non-zero modulo `2 ^ 32`. -/
theorem mul3_ne_zero (freq : Nat) (h0 : freq ≠ 0) (h32 : freq < 2 ^ 32) :
    freq * 3 % 2 ^ 32 ≠ 0 := by
  intro h
  have hd : 2 ^ 32 ∣ freq * 3 := Nat.dvd_of_mod_eq_zero h
  have hc : Nat.Coprime (2 ^ 32) 3 := by
    apply Nat.Coprime.pow_left
    decide
  have hf : 2 ^ 32 ∣ freq := hc.dvd_of_dvd_mul_right hd
  have hle := Nat.le_of_dvd (Nat.pos_of_ne_zero h0) hf
  exact absurd h32 (Nat.not_lt.mpr hle)

/-! ## Timing configurator: the three paths of `stm32_i2c_set_freq` -/

/-- The rejected path: above the fast-mode ceiling. -/
theorem set_freq_reject (c : Config) (pdata : stm32_i2c_adapter_platform)
    (freq : Nat) (w : World) (h : c.I2C_FASTMODE_MAX_FREQ < freq) :
    stm32_i2c_set_freq c pdata freq w = .ret (-(c.EINVAL : Int))
      { w with
        reads := w.reads + 1,
        trace := w.trace ++
          [Event.read32 .CR1 (w.input w.reads % 2 ^ 32),
           Event.write32 .CR1 0,
           Event.write32 .CR1 (w.input w.reads % 2 ^ 32)] } := by
  simp [stm32_i2c_set_freq, bind_eq, pure_eq, read32, write32, emit, h]

/-- The accepted path with a non-zero divisor. -/
theorem set_freq_accept (c : Config) (pdata : stm32_i2c_adapter_platform)
    (freq : Nat) (w : World) (h : freq ≤ c.I2C_FASTMODE_MAX_FREQ)
    (h3 : freq * 3 % 2 ^ 32 ≠ 0) :
    stm32_i2c_set_freq c pdata freq w = .ret 0
      { w with
        reads := w.reads + 1,
        trace := w.trace ++
          [Event.read32 .CR1 (w.input w.reads % 2 ^ 32),
           Event.write32 .CR1 0,
           Event.write32 .CCR
             (((if freq > c.I2C_STDMODE_MAX_FREQ then I2C_CCR_FASTMODE
                else I2C_CCR_STDMODE) |||
               (pdata.clk % 2 ^ 32) / (freq * 3 % 2 ^ 32)) % 2 ^ 32),
           Event.write32 .TRISE
             (((pdata.clk % 2 ^ 32) / I2C_STDMODE_INVT + 1) % 2 ^ 32),
           Event.write32 .CR1 (w.input w.reads % 2 ^ 32)] } := by
  norm_num at h3
  have hn : ¬ c.I2C_FASTMODE_MAX_FREQ < freq := Nat.not_lt.mpr h
  simp [stm32_i2c_set_freq, bind_eq, pure_eq, read32, write32, emit, udiv32, hn, h3]

/-- The accepted path with a zero divisor: the run stops at the division,
after the controller was disabled and before anything else is written. -/
theorem set_freq_trap (c : Config) (pdata : stm32_i2c_adapter_platform)
    (freq : Nat) (w : World) (h : freq ≤ c.I2C_FASTMODE_MAX_FREQ)
    (h3 : freq * 3 % 2 ^ 32 = 0) :
    stm32_i2c_set_freq c pdata freq w = .trap
      { w with
        reads := w.reads + 1,
        trace := w.trace ++
          [Event.read32 .CR1 (w.input w.reads % 2 ^ 32), Event.write32 .CR1 0] } := by
  norm_num at h3
  have hn : ¬ c.I2C_FASTMODE_MAX_FREQ < freq := Nat.not_lt.mpr h
  simp [stm32_i2c_set_freq, bind_eq, pure_eq, read32, write32, emit, udiv32, hn, h3]

/-- The divider fits in 32 bits. -/
theorem divider_lt (clk d : Nat) : (clk % 2 ^ 32) / d < 2 ^ 32 :=
  Nat.lt_of_le_of_lt (Nat.div_le_self _ _) (Nat.mod_lt _ (by norm_num))

/-! ## Claims on the timing configurator -/

/-- C1: a frequency above the fast-mode ceiling is rejected with `-EINVAL`; the
events of the call are the read of CR1, `CR1 := 0` and `CR1 := ` the value read,
so nothing is written to CCR or TRISE. A frequency at or below the ceiling never
yields `-EINVAL`. -/
theorem C1_set_freq_rejects_above_ceiling (c : Config)
    (pdata : stm32_i2c_adapter_platform) (freq : Nat) (w : World)
    (hE : c.EINVAL ≠ 0) :
    (c.I2C_FASTMODE_MAX_FREQ < freq →
      stm32_i2c_set_freq c pdata freq w = .ret (-(c.EINVAL : Int))
        { w with
          reads := w.reads + 1,
          trace := w.trace ++
            [Event.read32 .CR1 (w.input w.reads % 2 ^ 32),
             Event.write32 .CR1 0,
             Event.write32 .CR1 (w.input w.reads % 2 ^ 32)] } ∧
      writesOf
          [Event.read32 .CR1 (w.input w.reads % 2 ^ 32),
           Event.write32 .CR1 0,
           Event.write32 .CR1 (w.input w.reads % 2 ^ 32)] =
        [(Reg.CR1, 0), (Reg.CR1, w.input w.reads % 2 ^ 32)]) ∧
    (freq ≤ c.I2C_FASTMODE_MAX_FREQ →
      (stm32_i2c_set_freq c pdata freq w).value ≠ some (-(c.EINVAL : Int))) := by
  refine ⟨fun h => ⟨set_freq_reject c pdata freq w h, rfl⟩, fun h => ?_⟩
  by_cases h3 : freq * 3 % 2 ^ 32 = 0
  · rw [set_freq_trap c pdata freq w h h3]
    simp [Outcome.value]
  · rw [set_freq_accept c pdata freq w h h3]
    simp only [Outcome.value]
    intro hc
    have hz : (0 : Int) = -(c.EINVAL : Int) := Option.some.inj hc
    have : (c.EINVAL : Int) = 0 := by omega
    exact hE (by exact_mod_cast this)

/-- Witness of C1: 400001 Hz is rejected, 100000 Hz is not, with the usual
constants and the board's 42 MHz clock. -/
theorem C1_witness :
    stdConfig.EINVAL ≠ 0 ∧
    (stm32_i2c_set_freq stdConfig stm32_i2c_pdata 400001 (World.init (fun _ => 1)) =
        .ret (-(stdConfig.EINVAL : Int))
          { World.init (fun _ => 1) with
            reads := (World.init (fun _ => 1)).reads + 1,
            trace := (World.init (fun _ => 1)).trace ++
              [Event.read32 .CR1 (1 % 2 ^ 32), Event.write32 .CR1 0,
               Event.write32 .CR1 (1 % 2 ^ 32)] } ∧
      writesOf
          [Event.read32 .CR1 (1 % 2 ^ 32), Event.write32 .CR1 0,
           Event.write32 .CR1 (1 % 2 ^ 32)] =
        [(Reg.CR1, 0), (Reg.CR1, 1 % 2 ^ 32)]) ∧
    (stm32_i2c_set_freq stdConfig stm32_i2c_pdata 100000
        (World.init (fun _ => 1))).value ≠ some (-(stdConfig.EINVAL : Int)) :=
  ⟨by decide,
   (C1_set_freq_rejects_above_ceiling stdConfig stm32_i2c_pdata 400001
      (World.init (fun _ => 1)) (by decide)).1 (by decide),
   (C1_set_freq_rejects_above_ceiling stdConfig stm32_i2c_pdata 100000
      (World.init (fun _ => 1)) (by decide)).2 (by decide)⟩

/-- C2, as stated, fails: with the board's 42 MHz clock and 400 Hz (below the
standard-mode ceiling) the value written to CCR is the divider 35000, whose
bit 15 is set. -/
theorem C2_counterexample :
    (400 : Nat) ≤ stdConfig.I2C_STDMODE_MAX_FREQ ∧
    (stm32_i2c_set_freq stdConfig stm32_i2c_pdata 400
        (World.init (fun _ => 1))).value = some 0 ∧
    writesOf (stm32_i2c_set_freq stdConfig stm32_i2c_pdata 400
        (World.init (fun _ => 1))).world.trace =
      [(Reg.CR1, 0), (Reg.CCR, 35000), (Reg.TRISE, 43), (Reg.CR1, 1)] ∧
    Nat.testBit 35000 15 = true := by
  refine ⟨by decide, ?_, ?_, by decide⟩
  · rw [set_freq_accept stdConfig stm32_i2c_pdata 400 _ (by decide) (by decide)]
    rfl
  · rw [set_freq_accept stdConfig stm32_i2c_pdata 400 _ (by decide) (by decide)]
    decide

/-- C2, amended: for a non-zero frequency at or below the standard-mode ceiling
the speed constant OR-ed into the CCR value is `I2C_CCR_STDMODE = 0`, so the
value written is the bare divider `clk / (freq * 3)`; its bit 15 is the
divider's bit 15, clear whenever the divider is below `2 ^ 15`. For a frequency
above the standard-mode ceiling and at or below the fast-mode ceiling, bit 15 of
the value written to CCR is set. -/
theorem C2_speed_grade_bit (c : Config) (pdata : stm32_i2c_adapter_platform)
    (freq : Nat) (w : World) (h0 : freq ≠ 0) (h32 : freq < 2 ^ 32)
    (hfast : freq ≤ c.I2C_FASTMODE_MAX_FREQ) :
    ∃ x t : Nat,
      stm32_i2c_set_freq c pdata freq w = .ret 0
        { w with
          reads := w.reads + 1,
          trace := w.trace ++
            [Event.read32 .CR1 (w.input w.reads % 2 ^ 32),
             Event.write32 .CR1 0,
             Event.write32 .CCR x,
             Event.write32 .TRISE t,
             Event.write32 .CR1 (w.input w.reads % 2 ^ 32)] } ∧
      (freq ≤ c.I2C_STDMODE_MAX_FREQ →
        x = (pdata.clk % 2 ^ 32) / (freq * 3 % 2 ^ 32) ∧
        (x < 2 ^ 15 → Nat.testBit x 15 = false)) ∧
      (c.I2C_STDMODE_MAX_FREQ < freq → Nat.testBit x 15 = true) := by
  refine ⟨((if freq > c.I2C_STDMODE_MAX_FREQ then I2C_CCR_FASTMODE
                else I2C_CCR_STDMODE) |||
               (pdata.clk % 2 ^ 32) / (freq * 3 % 2 ^ 32)) % 2 ^ 32,
          ((pdata.clk % 2 ^ 32) / I2C_STDMODE_INVT + 1) % 2 ^ 32, ?_, ?_, ?_⟩
  · exact set_freq_accept c pdata freq w hfast (mul3_ne_zero freq h0 h32)
  · intro hstd
    have hn : ¬ freq > c.I2C_STDMODE_MAX_FREQ := Nat.not_lt.mpr hstd
    have hx : ((if freq > c.I2C_STDMODE_MAX_FREQ then I2C_CCR_FASTMODE
                else I2C_CCR_STDMODE) |||
               (pdata.clk % 2 ^ 32) / (freq * 3 % 2 ^ 32)) % 2 ^ 32 =
        (pdata.clk % 2 ^ 32) / (freq * 3 % 2 ^ 32) := by
      rw [if_neg hn]
      have hz : I2C_CCR_STDMODE = 0 := by decide
      rw [hz, Nat.zero_or]
      exact Nat.mod_eq_of_lt (divider_lt _ _)
    rw [hx]
    exact ⟨rfl, fun hlt => Nat.testBit_lt_two_pow hlt⟩
  · intro hgt
    rw [if_pos hgt, Nat.testBit_mod_two_pow, Nat.testBit_or]
    have hb : Nat.testBit I2C_CCR_FASTMODE 15 = true := by decide
    simp [hb]

/-- Witness of C2: 100 kHz (standard) and 400 kHz (fast) on the board's 42 MHz
clock. -/
theorem C2_witness :
    ((100000 : Nat) ≠ 0 ∧ (100000 : Nat) < 2 ^ 32 ∧
      (100000 : Nat) ≤ stdConfig.I2C_FASTMODE_MAX_FREQ ∧
      ∃ x t : Nat,
        stm32_i2c_set_freq stdConfig stm32_i2c_pdata 100000 (World.init (fun _ => 1)) =
          .ret 0
            { World.init (fun _ => 1) with
              reads := (World.init (fun _ => 1)).reads + 1,
              trace := (World.init (fun _ => 1)).trace ++
                [Event.read32 .CR1 (1 % 2 ^ 32),
                 Event.write32 .CR1 0,
                 Event.write32 .CCR x,
                 Event.write32 .TRISE t,
                 Event.write32 .CR1 (1 % 2 ^ 32)] } ∧
        ((100000 : Nat) ≤ stdConfig.I2C_STDMODE_MAX_FREQ →
          x = (stm32_i2c_pdata.clk % 2 ^ 32) / (100000 * 3 % 2 ^ 32) ∧
          (x < 2 ^ 15 → Nat.testBit x 15 = false)) ∧
        (stdConfig.I2C_STDMODE_MAX_FREQ < 100000 → Nat.testBit x 15 = true)) :=
  ⟨by decide, by norm_num, by decide,
   C2_speed_grade_bit stdConfig stm32_i2c_pdata 100000 (World.init (fun _ => 1))
     (by decide) (by norm_num) (by decide)⟩

/-- C3 fails on the code at 0 Hz: the frequency passes the range check, so it
is an accepted frequency, but the divisor `freq * 3` is zero; the division is
undefined and the run stops there with `CR1 := 0` as its only register write.
No divider is written to CCR. For every other accepted frequency the divider is
`clk / (freq * 3)` (`set_freq_divider`). -/
theorem C3_zero_freq_no_ccr_write :
    (0 : Nat) ≤ stdConfig.I2C_FASTMODE_MAX_FREQ ∧
    (stm32_i2c_set_freq stdConfig stm32_i2c_pdata 0
        (World.init (fun _ => 1))).value = none ∧
    writesOf (stm32_i2c_set_freq stdConfig stm32_i2c_pdata 0
        (World.init (fun _ => 1))).world.trace = [(Reg.CR1, 0)] := by
  refine ⟨by decide, ?_, ?_⟩
  · rw [set_freq_trap stdConfig stm32_i2c_pdata 0 _ (by decide) (by decide)]
    rfl
  · rw [set_freq_trap stdConfig stm32_i2c_pdata 0 _ (by decide) (by decide)]
    decide

/-- Divider on the accepted path: for every accepted frequency other than 0, in
both speed grades, the call returns 0 and the value written to CCR is the speed
constant OR-ed with `clk / (freq * 3)` in 32-bit unsigned arithmetic (the
product is `freq * 3` itself whenever it fits in 32 bits); the duty-cycle
formula `clk / (freq * 25) | DUTY` does not occur. With the board's 42 MHz clock
and 100 kHz the divider, and the CCR value, is 140. -/
theorem set_freq_divider (c : Config) (pdata : stm32_i2c_adapter_platform)
    (freq : Nat) (w : World) (h0 : freq ≠ 0) (h32 : freq < 2 ^ 32)
    (hfast : freq ≤ c.I2C_FASTMODE_MAX_FREQ) :
    (∃ t : Nat,
      stm32_i2c_set_freq c pdata freq w = .ret 0
        { w with
          reads := w.reads + 1,
          trace := w.trace ++
            [Event.read32 .CR1 (w.input w.reads % 2 ^ 32),
             Event.write32 .CR1 0,
             Event.write32 .CCR
               ((if freq > c.I2C_STDMODE_MAX_FREQ then I2C_CCR_FASTMODE
                  else I2C_CCR_STDMODE) |||
                 (pdata.clk % 2 ^ 32) / (freq * 3 % 2 ^ 32)),
             Event.write32 .TRISE t,
             Event.write32 .CR1 (w.input w.reads % 2 ^ 32)] }) ∧
    (freq * 3 < 2 ^ 32 → freq * 3 % 2 ^ 32 = freq * 3) ∧
    writesOf (stm32_i2c_set_freq stdConfig stm32_i2c_pdata 100000
        (World.init (fun _ => 1))).world.trace =
      [(Reg.CR1, 0), (Reg.CCR, 140), (Reg.TRISE, 43), (Reg.CR1, 1)] := by
  refine ⟨⟨((pdata.clk % 2 ^ 32) / I2C_STDMODE_INVT + 1) % 2 ^ 32, ?_⟩,
    fun h => Nat.mod_eq_of_lt h, ?_⟩
  · rw [set_freq_accept c pdata freq w hfast (mul3_ne_zero freq h0 h32)]
    have hlt : ((if freq > c.I2C_STDMODE_MAX_FREQ then I2C_CCR_FASTMODE
                  else I2C_CCR_STDMODE) |||
                 (pdata.clk % 2 ^ 32) / (freq * 3 % 2 ^ 32)) < 2 ^ 32 := by
      apply Nat.or_lt_two_pow
      · split <;> decide
      · exact divider_lt _ _
    rw [Nat.mod_eq_of_lt hlt]
  · rw [set_freq_accept stdConfig stm32_i2c_pdata 100000 _ (by decide) (by decide)]
    decide

/-- The divider statement at 400 kHz, the fast grade, on the board's 42 MHz
clock. -/
theorem set_freq_divider_400k :
    (400000 : Nat) ≠ 0 ∧ (400000 : Nat) < 2 ^ 32 ∧
    (400000 : Nat) ≤ stdConfig.I2C_FASTMODE_MAX_FREQ ∧
    ((∃ t : Nat,
      stm32_i2c_set_freq stdConfig stm32_i2c_pdata 400000 (World.init (fun _ => 1)) =
        .ret 0
          { World.init (fun _ => 1) with
            reads := (World.init (fun _ => 1)).reads + 1,
            trace := (World.init (fun _ => 1)).trace ++
              [Event.read32 .CR1 (1 % 2 ^ 32),
               Event.write32 .CR1 0,
               Event.write32 .CCR
                 ((if 400000 > stdConfig.I2C_STDMODE_MAX_FREQ then I2C_CCR_FASTMODE
                    else I2C_CCR_STDMODE) |||
                   (stm32_i2c_pdata.clk % 2 ^ 32) / (400000 * 3 % 2 ^ 32)),
               Event.write32 .TRISE t,
               Event.write32 .CR1 (1 % 2 ^ 32)] }) ∧
    (400000 * 3 < 2 ^ 32 → 400000 * 3 % 2 ^ 32 = 400000 * 3) ∧
    writesOf (stm32_i2c_set_freq stdConfig stm32_i2c_pdata 100000
        (World.init (fun _ => 1))).world.trace =
      [(Reg.CR1, 0), (Reg.CCR, 140), (Reg.TRISE, 43), (Reg.CR1, 1)]) :=
  ⟨by decide, by norm_num, by decide,
   set_freq_divider stdConfig stm32_i2c_pdata 400000 (World.init (fun _ => 1))
     (by decide) (by norm_num) (by decide)⟩

/-- C4 fails on the code: the rise-time test compares against the fast-mode
ceiling, which no accepted frequency exceeds, so the standard-mode constant is
used in both grades. At 400 kHz (fast grade, CCR bit 15 set) on the board's
42 MHz clock, TRISE is written with `42000000 / 1000000 + 1 = 43`, not with
`42000000 / 3333333 + 1 = 13`. -/
theorem C4_fast_grade_uses_std_rise_time :
    stdConfig.I2C_STDMODE_MAX_FREQ < 400000 ∧
    (400000 : Nat) ≤ stdConfig.I2C_FASTMODE_MAX_FREQ ∧
    (stm32_i2c_set_freq stdConfig stm32_i2c_pdata 400000
        (World.init (fun _ => 1))).value = some 0 ∧
    writesOf (stm32_i2c_set_freq stdConfig stm32_i2c_pdata 400000
        (World.init (fun _ => 1))).world.trace =
      [(Reg.CR1, 0), (Reg.CCR, 32768 + 35), (Reg.TRISE, 43), (Reg.CR1, 1)] ∧
    stm32_i2c_pdata.clk / I2C_STDMODE_INVT + 1 = 43 ∧
    stm32_i2c_pdata.clk / I2C_FASTMODE_INVT + 1 = 13 := by
  refine ⟨by decide, by decide, ?_, ?_, by decide, by decide⟩
  · rw [set_freq_accept stdConfig stm32_i2c_pdata 400000 _ (by decide) (by decide)]
    rfl
  · rw [set_freq_accept stdConfig stm32_i2c_pdata 400000 _ (by decide) (by decide)]
    decide

/-- Rise time on the accepted path, any grade: TRISE gets
`clk / I2C_STDMODE_INVT + 1`. -/
theorem set_freq_trise (c : Config) (pdata : stm32_i2c_adapter_platform)
    (freq : Nat) (w : World) (h : freq ≤ c.I2C_FASTMODE_MAX_FREQ)
    (h3 : freq * 3 % 2 ^ 32 ≠ 0) :
    ∃ x : Nat,
      writesOf (stm32_i2c_set_freq c pdata freq { w with trace := [] }).world.trace =
        [(Reg.CR1, 0), (Reg.CCR, x),
         (Reg.TRISE, ((pdata.clk % 2 ^ 32) / I2C_STDMODE_INVT + 1) % 2 ^ 32),
         (Reg.CR1, w.input w.reads % 2 ^ 32)] := by
  rw [set_freq_accept c pdata freq _ h h3]
  exact ⟨_, rfl⟩

/-- CR1 is restored on every path that returns: the last write of the call is
`CR1 := ` the value read at entry, and replaying the writes of the call over any
register file leaves that value in CR1. -/
theorem set_freq_restores_cr1 (c : Config) (pdata : stm32_i2c_adapter_platform)
    (freq : Nat) (w : World) (regs : Reg → Nat)
    (h3 : c.I2C_FASTMODE_MAX_FREQ < freq ∨ freq * 3 % 2 ^ 32 ≠ 0) :
    ∃ ws : List (Reg × Nat),
      writesOf (stm32_i2c_set_freq c pdata freq { w with trace := [] }).world.trace =
        (Reg.CR1, 0) :: ws ++ [(Reg.CR1, w.input w.reads % 2 ^ 32)] ∧
      (∀ p ∈ ws, p.1 ≠ Reg.CR1) ∧
      replay regs (stm32_i2c_set_freq c pdata freq { w with trace := [] }).world.trace
        Reg.CR1 = w.input w.reads % 2 ^ 32 := by
  by_cases h : c.I2C_FASTMODE_MAX_FREQ < freq
  · rw [set_freq_reject c pdata freq _ h]
    exact ⟨[], rfl, by simp, by simp [Outcome.world, replay]⟩
  · have h3' : freq * 3 % 2 ^ 32 ≠ 0 := h3.resolve_left h
    rw [set_freq_accept c pdata freq _ (Nat.le_of_not_lt h) h3']
    exact ⟨[(Reg.CCR, _), (Reg.TRISE, _)], rfl, by simp, by simp [Outcome.world, replay]⟩

/-- C5 fails on the code at 0 Hz: the frequency passes the range check and the
run reaches the division by `freq * 3 = 0`, which is undefined, after
`CR1 := 0` and before the restoring write at `out:`. Up to that point the only
register write of the call is `CR1 := 0`, so the replayed CR1 holds 0 whatever
it held at entry, and no return is reached. -/
theorem C5_zero_freq_stops_before_restore (c : Config)
    (pdata : stm32_i2c_adapter_platform) (w : World) (regs : Reg → Nat) :
    (stm32_i2c_set_freq c pdata 0 { w with trace := [] }).value = none ∧
    writesOf (stm32_i2c_set_freq c pdata 0 { w with trace := [] }).world.trace =
      [(Reg.CR1, 0)] ∧
    replay regs (stm32_i2c_set_freq c pdata 0 { w with trace := [] }).world.trace
      Reg.CR1 = 0 := by
  rw [set_freq_trap c pdata 0 _ (Nat.zero_le _) (by decide)]
  exact ⟨rfl, rfl, by simp [Outcome.world, replay]⟩

/-! ## Transfer engine: stepping lemmas -/

theorem i2c_dump_eq (w : World) :
    i2c_dump w = .ret ()
      { w with reads := w.reads + 6, trace := w.trace ++ dumpEvents w.input w.reads } := by
  simp [i2c_dump, bind_eq, pure_eq, read32, dumpEvents]

/-- A register dump writes no register. -/
theorem writesOf_dumpEvents (input : Nat → Nat) (r : Nat) :
    writesOf (dumpEvents input r) = [] := rfl

theorem writesOf_append (xs ys : List Event) :
    writesOf (xs ++ ys) = writesOf xs ++ writesOf ys := by
  induction xs with
  | nil => rfl
  | cons e es ih => cases e <;> simp [writesOf, ih]

/-- A value has a bit of the error mask exactly when one of the six error bits
is set. -/
theorem error_mask_iff (v : Nat) :
    v &&& SR1_ERROR_MASK ≠ 0 ↔ ∃ b ∈ errorBits, Nat.testBit v b = true := by
  constructor
  · intro h
    by_contra hne
    apply h
    apply Nat.eq_of_testBit_eq
    intro i
    rw [Nat.testBit_and, Nat.zero_testBit]
    by_cases hi : i < 15
    · have hb : ∀ b ∈ errorBits, Nat.testBit v b = false := by
        intro b hb
        by_contra hv
        exact hne ⟨b, hb, by simpa using hv⟩
      simp only [errorBits, List.mem_cons, List.mem_singleton, forall_eq_or_imp,
        forall_eq, List.not_mem_nil, false_implies, implies_true, and_true] at hb
      obtain ⟨h14, h12, h11, h10, h9, h8⟩ := hb
      interval_cases i <;> simp [SR1_ERROR_MASK, I2C_SR1_TIMEOUT, I2C_SR1_AF,
        I2C_SR1_PECERR, I2C_SR1_OVR, I2C_SR1_ARLO, I2C_SR1_BERR, *] <;>
        (intro _; decide)
    · have hlt : SR1_ERROR_MASK < 2 ^ i :=
        Nat.lt_of_lt_of_le (by decide : SR1_ERROR_MASK < 2 ^ 15)
          (Nat.pow_le_pow_right (by decide) (Nat.le_of_not_lt hi))
      rw [Nat.testBit_lt_two_pow hlt, Bool.and_false]
  · rintro ⟨b, hb, hv⟩ h0
    have hm : Nat.testBit SR1_ERROR_MASK b = true := by
      simp only [errorBits, List.mem_cons, List.mem_singleton, List.not_mem_nil,
        or_false] at hb
      rcases hb with rfl | rfl | rfl | rfl | rfl | rfl <;> decide
    have ht : Nat.testBit (v &&& SR1_ERROR_MASK) b = true := by
      rw [Nat.testBit_and, hv, hm]; rfl
    rw [h0, Nat.zero_testBit] at ht
    exact Bool.noConfusion ht

/-- Start condition: `CR1 := PE | START`, one read of SR1, `-EIO` exactly when
the value read has an error-mask bit. -/
theorem start_eq (c : Config) (w : World) :
    stm32_i2c_generate_start_condition c w =
      .ret (if (w.input w.reads % 2 ^ 32) &&& SR1_ERROR_MASK ≠ 0 then -(c.EIO : Int) else 0)
        { w with
          reads := w.reads + 1,
          trace := w.trace ++
            [Event.write32 .CR1 (I2C_CR1_PE ||| I2C_CR1_START),
             Event.read32 .SR1 (w.input w.reads % 2 ^ 32)] } := by
  by_cases h : (w.input w.reads % 2 ^ 32) &&& SR1_ERROR_MASK = 0
  · norm_num at h
    simp [stm32_i2c_generate_start_condition, bind_eq, pure_eq, read32, write32, emit, h,
      I2C_CR1_PE, I2C_CR1_START]
  · norm_num at h
    simp [stm32_i2c_generate_start_condition, bind_eq, pure_eq, read32, write32, emit, h,
      I2C_CR1_PE, I2C_CR1_START]

theorem stop_eq (w : World) :
    stm32_i2c_generate_stop_condition w =
      .ret () { w with trace := w.trace ++
        [Event.write32 .CR1 (I2C_CR1_PE ||| I2C_CR1_STOP)] } := by
  simp [stm32_i2c_generate_stop_condition, write32, emit, I2C_CR1_PE, I2C_CR1_STOP]

/-- The address byte of a 16-bit address field fits in 32 bits. -/
theorem addr_byte_lt (addr : Nat) :
    ((addr % 2 ^ 16) <<< 1 ||| 1) < 2 ^ 32 ∧ (addr % 2 ^ 16) <<< 1 < 2 ^ 32 := by
  have h : addr % 2 ^ 16 < 2 ^ 16 := Nat.mod_lt _ (by norm_num)
  have h1 : (addr % 2 ^ 16) <<< 1 < 2 ^ 32 := by
    rw [Nat.shiftLeft_eq]
    norm_num at h ⊢
    omega
  exact ⟨Nat.or_lt_two_pow h1 (by norm_num), h1⟩

/-- Receive address phase, error in the status read. -/
theorem rx_address_err (c : Config) (addr : Nat) (w : World)
    (h : (w.input w.reads % 2 ^ 32) &&& SR1_ERROR_MASK ≠ 0) :
    stm32_i2c_send_rx_address c addr w = .ret (-(c.EIO : Int))
      { w with
        reads := w.reads + 1,
        trace := w.trace ++
          [Event.write32 .DR ((addr % 2 ^ 16) <<< 1 ||| 1),
           Event.read32 .SR1 (w.input w.reads % 2 ^ 32)] } := by
  have hb := Nat.mod_eq_of_lt (addr_byte_lt addr).1
  norm_num at h hb
  simp [stm32_i2c_send_rx_address, bind_eq, pure_eq, read32, write32, emit, h, hb]

/-- Receive address phase, clean status read. -/
theorem rx_address_ok (c : Config) (addr : Nat) (w : World)
    (h : (w.input w.reads % 2 ^ 32) &&& SR1_ERROR_MASK = 0) :
    stm32_i2c_send_rx_address c addr w = .ret 0
      { w with
        reads := w.reads + 2,
        trace := w.trace ++
          [Event.write32 .DR ((addr % 2 ^ 16) <<< 1 ||| 1),
           Event.read32 .SR1 (w.input w.reads % 2 ^ 32),
           Event.read32 .SR2 (w.input (w.reads + 1) % 2 ^ 32)] } := by
  have hb := Nat.mod_eq_of_lt (addr_byte_lt addr).1
  norm_num at h hb
  simp [stm32_i2c_send_rx_address, bind_eq, pure_eq, read32, write32, emit, h, hb]

/-- Transmit address phase, error in the status read. -/
theorem tx_address_err (c : Config) (addr : Nat) (w : World)
    (h : (w.input w.reads % 2 ^ 32) &&& SR1_ERROR_MASK ≠ 0) :
    stm32_i2c_send_tx_address c addr w = .ret (-(c.EIO : Int))
      { w with
        reads := w.reads + 1,
        trace := w.trace ++
          [Event.write32 .DR ((addr % 2 ^ 16) <<< 1),
           Event.read32 .SR1 (w.input w.reads % 2 ^ 32)] } := by
  have hb := Nat.mod_eq_of_lt (addr_byte_lt addr).2
  norm_num at h hb
  simp [stm32_i2c_send_tx_address, bind_eq, pure_eq, read32, write32, emit, h, hb]

/-- Transmit address phase, clean status read. -/
theorem tx_address_ok (c : Config) (addr : Nat) (w : World)
    (h : (w.input w.reads % 2 ^ 32) &&& SR1_ERROR_MASK = 0) :
    stm32_i2c_send_tx_address c addr w = .ret 0
      { w with
        reads := w.reads + 2,
        trace := w.trace ++
          [Event.write32 .DR ((addr % 2 ^ 16) <<< 1),
           Event.read32 .SR1 (w.input w.reads % 2 ^ 32),
           Event.read32 .SR2 (w.input (w.reads + 1) % 2 ^ 32)] } := by
  have hb := Nat.mod_eq_of_lt (addr_byte_lt addr).2
  norm_num at h hb
  simp [stm32_i2c_send_tx_address, bind_eq, pure_eq, read32, write32, emit, h, hb]
/-- One iteration of the message loop, unfolded. -/
theorem transfer_loop_succ (c : Config) (fuel : Nat) (msg : Nat → i2c_msg)
    (n i : Nat) (w : World) :
    transfer_loop c fuel msg (n + 1) i w =
      match stm32_i2c_generate_start_condition c w with
      | .ret r w1 =>
        if r ≠ 0 then .ret r w1
        else
          match (if (msg i).flags &&& c.I2C_M_READ ≠ 0 then stm32_i2c_recv c (msg i)
                 else stm32_i2c_send c fuel (msg i)) w1 with
          | .ret r2 w2 => if r2 ≠ 0 then .ret r2 w2 else transfer_loop c fuel msg n (i + 1) w2
          | .trap w2 => .trap w2
          | .spin w2 => .spin w2
      | .trap w1 => .trap w1
      | .spin w1 => .spin w1 := by
  rw [transfer_loop, bind_eq]
  cases stm32_i2c_generate_start_condition c w with
  | ret r w1 =>
    simp only []
    by_cases hr : r ≠ 0
    · simp only [if_pos hr, pure_eq]
    · simp only [if_neg hr]
      by_cases hf : (msg i).flags &&& c.I2C_M_READ ≠ 0
      · simp only [if_pos hf, bind_eq]
        cases stm32_i2c_recv c (msg i) w1 with
        | ret r2 w2 =>
          simp only []
          by_cases hr2 : r2 ≠ 0
          · simp only [if_pos hr2, pure_eq]
          · simp only [if_neg hr2]
        | trap w2 => rfl
        | spin w2 => rfl
      · simp only [if_neg hf, bind_eq]
        cases stm32_i2c_send c fuel (msg i) w1 with
        | ret r2 w2 =>
          simp only []
          by_cases hr2 : r2 ≠ 0
          · simp only [if_pos hr2, pure_eq]
          · simp only [if_neg hr2]
        | trap w2 => rfl
        | spin w2 => rfl
  | trap w1 => rfl
  | spin w1 => rfl

/-- If the first `k` messages from index `i` complete without error, the loop
over `k + r` messages goes on with the remaining `r` from the world reached. -/
theorem transfer_loop_split (c : Config) (fuel : Nat) (msg : Nat → i2c_msg) (r : Nat) :
    ∀ (k i : Nat) (w w1 : World),
      transfer_loop c fuel msg k i w = .ret 0 w1 →
      transfer_loop c fuel msg (k + r) i w = transfer_loop c fuel msg r (i + k) w1 := by
  intro k
  induction k with
  | zero =>
    intro i w w1 h
    rw [transfer_loop, pure_eq] at h
    injection h with _ hw
    subst hw
    simp
  | succ k ih =>
    intro i w w1 h
    rw [Nat.add_right_comm, transfer_loop_succ]
    rw [transfer_loop_succ] at h
    cases hs : stm32_i2c_generate_start_condition c w with
    | ret r0 w0 =>
      rw [hs] at h
      simp only [] at h ⊢
      by_cases hr : r0 ≠ 0
      · rw [if_pos hr] at h
        injection h with h1 _
        exact absurd h1 hr
      · rw [if_neg hr] at h
        rw [if_neg hr]
        cases hb : (if (msg i).flags &&& c.I2C_M_READ ≠ 0 then stm32_i2c_recv c (msg i)
                 else stm32_i2c_send c fuel (msg i)) w0 with
        | ret r2 w2 =>
          rw [hb] at h
          simp only [] at h ⊢
          by_cases hr2 : r2 ≠ 0
          · rw [if_pos hr2] at h
            injection h with h1 _
            exact absurd h1 hr2
          · rw [if_neg hr2] at h
            rw [if_neg hr2, ih (i + 1) w2 w1 h]
            congr 1
            omega
        | trap w2 => rw [hb] at h; exact Outcome.noConfusion h
        | spin w2 => rw [hb] at h; exact Outcome.noConfusion h
    | trap w0 => rw [hs] at h; exact Outcome.noConfusion h
    | spin w0 => rw [hs] at h; exact Outcome.noConfusion h

/-! ## Claims on the transfer engine -/

/-- C6: with `count = 0` the transfer returns 0 and leaves the world as it was:
no register access, no lock, no stop condition; for every world and every
message pointer. -/
theorem C6_transfer_empty (c : Config) (fuel : Nat) (msg : Nat → i2c_msg) (w : World) :
    stm32_i2c_transfer c fuel msg 0 w = .ret 0 w ∧
    (stm32_i2c_transfer c fuel msg 0 w).world.trace = w.trace := by
  have h : stm32_i2c_transfer c fuel msg 0 w = .ret 0 w := by
    simp [stm32_i2c_transfer, pure_eq]
  rw [h]
  exact ⟨rfl, rfl⟩
/-- Write path with a failing address phase: interrupts are disabled, the
address byte is written, SR1 is read, and the call returns `-EIO`. -/
theorem send_err (c : Config) (fuel : Nat) (m : i2c_msg) (w : World) (hE : c.EIO ≠ 0)
    (h : (w.input w.reads % 2 ^ 32) &&& SR1_ERROR_MASK ≠ 0) :
    stm32_i2c_send c fuel m w = .ret (-(c.EIO : Int))
      { w with
        reads := w.reads + 1,
        trace := w.trace ++
          [Event.irq_disable,
           Event.write32 .DR ((m.addr % 2 ^ 16) <<< 1),
           Event.read32 .SR1 (w.input w.reads % 2 ^ 32)] } := by
  have hE' : (c.EIO : Int) ≠ 0 := by exact_mod_cast hE
  rw [stm32_i2c_send, bind_eq]
  simp only [irq_disable, emit, bind_eq]
  rw [tx_address_err c m.addr _ (by exact h)]
  simp [pure_eq, hE']

/-- Write path of a zero-length message with a clean address phase. -/
theorem send_ok_zero (c : Config) (fuel : Nat) (m : i2c_msg) (w : World)
    (hl : m.length = 0)
    (h : (w.input w.reads % 2 ^ 32) &&& SR1_ERROR_MASK = 0) :
    stm32_i2c_send c fuel m w = .ret 0
      { w with
        reads := w.reads + 8,
        trace := w.trace ++
          ([Event.irq_disable,
            Event.write32 .DR ((m.addr % 2 ^ 16) <<< 1),
            Event.read32 .SR1 (w.input w.reads % 2 ^ 32),
            Event.read32 .SR2 (w.input (w.reads + 1) % 2 ^ 32)] ++
           dumpEvents w.input (w.reads + 2) ++ [Event.irq_enable]) } := by
  rw [stm32_i2c_send, bind_eq]
  simp only [irq_disable, emit, bind_eq]
  rw [tx_address_ok c m.addr _ (by exact h)]
  simp [pure_eq, bind_eq, i2c_dump_eq, hl, send_loop, irq_enable, emit]

/-- C7: a single write message of length 0 to a 7-bit address, with no
error-mask bit in the two status reads the code checks (they are reads number 6
and 7 of the call, after the six of the first register dump). The transfer
returns 0 (for any bound on the busy wait, which is not entered); its events are
the dump, the lock, start, `irq_disable`, the address byte, SR1, SR2, a dump,
`irq_enable`, a dump, stop and unlock; its register writes are exactly
`CR1 := PE|START`, `DR := addr << 1`, `CR1 := PE|STOP`. No buffer load and no
transmit-empty poll occurs. -/
theorem C7_zero_length_write (c : Config) (fuel : Nat) (msg : Nat → i2c_msg)
    (w : World) (ha : (msg 0).addr < 128)
    (hw : (msg 0).flags &&& c.I2C_M_READ = 0) (hl : (msg 0).length = 0)
    (h0 : (w.input (w.reads + 6) % 2 ^ 32) &&& SR1_ERROR_MASK = 0)
    (h1 : (w.input (w.reads + 7) % 2 ^ 32) &&& SR1_ERROR_MASK = 0) :
    stm32_i2c_transfer c fuel msg 1 w = .ret 0
      { w with
        reads := w.reads + 21,
        trace := w.trace ++
          (dumpEvents w.input w.reads ++
           [Event.mutex_lock,
            Event.write32 .CR1 (I2C_CR1_PE ||| I2C_CR1_START),
            Event.read32 .SR1 (w.input (w.reads + 6) % 2 ^ 32),
            Event.irq_disable,
            Event.write32 .DR ((msg 0).addr <<< 1),
            Event.read32 .SR1 (w.input (w.reads + 7) % 2 ^ 32),
            Event.read32 .SR2 (w.input (w.reads + 8) % 2 ^ 32)] ++
           dumpEvents w.input (w.reads + 9) ++
           [Event.irq_enable] ++
           dumpEvents w.input (w.reads + 15) ++
           [Event.write32 .CR1 (I2C_CR1_PE ||| I2C_CR1_STOP),
            Event.mutex_unlock]) } ∧
    writesOf
        (dumpEvents w.input w.reads ++
           [Event.mutex_lock,
            Event.write32 .CR1 (I2C_CR1_PE ||| I2C_CR1_START),
            Event.read32 .SR1 (w.input (w.reads + 6) % 2 ^ 32),
            Event.irq_disable,
            Event.write32 .DR ((msg 0).addr <<< 1),
            Event.read32 .SR1 (w.input (w.reads + 7) % 2 ^ 32),
            Event.read32 .SR2 (w.input (w.reads + 8) % 2 ^ 32)] ++
           dumpEvents w.input (w.reads + 9) ++
           [Event.irq_enable] ++
           dumpEvents w.input (w.reads + 15) ++
           [Event.write32 .CR1 (I2C_CR1_PE ||| I2C_CR1_STOP),
            Event.mutex_unlock]) =
      [(Reg.CR1, I2C_CR1_PE ||| I2C_CR1_START), (Reg.DR, (msg 0).addr <<< 1),
       (Reg.CR1, I2C_CR1_PE ||| I2C_CR1_STOP)] ∧
    (msg 0).addr <<< 1 < 256 := by
  have ha16 : (msg 0).addr % 2 ^ 16 = (msg 0).addr :=
    Nat.mod_eq_of_lt (Nat.lt_trans ha (by norm_num))
  refine ⟨?_, ?_, ?_⟩
  · rw [stm32_i2c_transfer, if_neg (by decide), bind_eq, i2c_dump_eq]
    simp only [bind_eq, mutex_lock, emit]
    rw [transfer_loop_succ, start_eq]
    simp only [h0, ne_eq, not_true_eq_false, if_false, hw]
    rw [send_ok_zero c fuel (msg 0) _ hl (by simpa using h1)]
    simp only [ne_eq, not_true_eq_false, if_false, transfer_loop, pure_eq, i2c_dump_eq,
      stop_eq, mutex_unlock, emit, ha16]
    simp [Nat.add_assoc]
  · simp [writesOf_append, writesOf_dumpEvents, writesOf]
  · rw [Nat.shiftLeft_eq]
    omega
/-- Witness of C7: one zero-length write to address 0x21 (the board's first
I2C device) on a bus that reads 0 from every register. -/
theorem C7_witness :
    (0x21 : Nat) < 128 ∧
    (stm32_i2c_transfer stdConfig 0 (fun _ => ⟨0x21, 0, 0, 0⟩) 1
        (World.init (fun _ => 0))).value = some 0 ∧
    writesOf (stm32_i2c_transfer stdConfig 0 (fun _ => ⟨0x21, 0, 0, 0⟩) 1
        (World.init (fun _ => 0))).world.trace =
      [(Reg.CR1, 257), (Reg.DR, 66), (Reg.CR1, 513)] := by
  have h := C7_zero_length_write stdConfig 0 (fun _ => ⟨0x21, 0, 0, 0⟩)
    (World.init (fun _ => 0)) (by decide) (by decide) rfl (by decide) (by decide)
  refine ⟨by decide, ?_, ?_⟩
  · rw [h.1]; rfl
  · rw [h.1]; decide

/-- C8: abort on a start-phase error. Let the first `k` messages of a transfer
of `count > k` messages complete without error, reaching world `w1`, and let the
SR1 value read right after the start condition of message `k` have one of the
six error bits set. Then the transfer returns `-EIO`; after `w1` its events are
exactly `CR1 := PE|START`, the SR1 read, the six reads of the register dump,
`CR1 := PE|STOP` and the unlock, so there is no write to DR and no buffer access
for message `k` or any later one, and the stop condition is the last register
write. An SR1 value without error-mask bit never fails the start phase. -/
theorem C8_start_error_aborts (c : Config) (fuel : Nat) (msg : Nat → i2c_msg)
    (count k : Nat) (w w1 : World) (hE : c.EIO ≠ 0) (hk : k < count)
    (hpre : (do i2c_dump; mutex_lock; transfer_loop c fuel msg k 0 : Drv Int) w =
      .ret 0 w1)
    (herr : ∃ b ∈ errorBits, Nat.testBit (w1.input w1.reads % 2 ^ 32) b = true) :
    stm32_i2c_transfer c fuel msg count w = .ret (-(c.EIO : Int))
      { w1 with
        reads := w1.reads + 7,
        trace := w1.trace ++
          ([Event.write32 .CR1 (I2C_CR1_PE ||| I2C_CR1_START),
            Event.read32 .SR1 (w1.input w1.reads % 2 ^ 32)] ++
           dumpEvents w1.input (w1.reads + 1) ++
           [Event.write32 .CR1 (I2C_CR1_PE ||| I2C_CR1_STOP),
            Event.mutex_unlock]) } ∧
    writesOf
        ([Event.write32 .CR1 (I2C_CR1_PE ||| I2C_CR1_START),
          Event.read32 .SR1 (w1.input w1.reads % 2 ^ 32)] ++
         dumpEvents w1.input (w1.reads + 1) ++
         [Event.write32 .CR1 (I2C_CR1_PE ||| I2C_CR1_STOP),
          Event.mutex_unlock]) =
      [(Reg.CR1, I2C_CR1_PE ||| I2C_CR1_START), (Reg.CR1, I2C_CR1_PE ||| I2C_CR1_STOP)] ∧
    (∀ w2 : World, (∀ b ∈ errorBits, Nat.testBit (w2.input w2.reads % 2 ^ 32) b = false) →
      (stm32_i2c_generate_start_condition c w2).value = some 0) := by
  have hE' : (c.EIO : Int) ≠ 0 := by exact_mod_cast hE
  have hmask := (error_mask_iff _).mpr herr
  refine ⟨?_, ?_, ?_⟩
  · obtain ⟨r, rfl⟩ : ∃ r, count = k + (r + 1) := ⟨count - k - 1, by omega⟩
    have hc : k + (r + 1) ≠ 0 := by omega
    rw [stm32_i2c_transfer, if_neg hc]
    simp only [bind_eq, i2c_dump_eq, mutex_lock, emit] at hpre ⊢
    rw [transfer_loop_split c fuel msg (r + 1) k 0 _ w1 hpre, transfer_loop_succ, start_eq]
    simp only [if_pos hmask, ne_eq, neg_eq_zero, hE', not_false_eq_true, if_true,
      i2c_dump_eq, stop_eq, mutex_unlock, emit, pure_eq]
    simp [Nat.add_assoc]
  · simp [writesOf_append, writesOf_dumpEvents, writesOf]
  · intro w2 h2
    have hz : (w2.input w2.reads % 2 ^ 32) &&& SR1_ERROR_MASK = 0 := by
      by_contra hne
      obtain ⟨b, hb, hv⟩ := (error_mask_iff _).mp hne
      rw [h2 b hb] at hv
      exact Bool.noConfusion hv
    rw [start_eq, if_neg (not_not.mpr hz)]
    rfl
/-- One loop iteration for a zero-length write message with clean status reads:
start, address phase, dump, and on to the next message. -/
theorem transfer_loop_zero_write (c : Config) (fuel : Nat) (msg : Nat → i2c_msg)
    (n i : Nat) (w : World)
    (hw : (msg i).flags &&& c.I2C_M_READ = 0) (hl : (msg i).length = 0)
    (h0 : (w.input w.reads % 2 ^ 32) &&& SR1_ERROR_MASK = 0)
    (h1 : (w.input (w.reads + 1) % 2 ^ 32) &&& SR1_ERROR_MASK = 0) :
    transfer_loop c fuel msg (n + 1) i w =
      transfer_loop c fuel msg n (i + 1)
        { w with
          reads := w.reads + 9,
          trace := w.trace ++
            ([Event.write32 .CR1 (I2C_CR1_PE ||| I2C_CR1_START),
              Event.read32 .SR1 (w.input w.reads % 2 ^ 32),
              Event.irq_disable,
              Event.write32 .DR (((msg i).addr % 2 ^ 16) <<< 1),
              Event.read32 .SR1 (w.input (w.reads + 1) % 2 ^ 32),
              Event.read32 .SR2 (w.input (w.reads + 2) % 2 ^ 32)] ++
             dumpEvents w.input (w.reads + 3) ++ [Event.irq_enable]) } := by
  rw [transfer_loop_succ, start_eq]
  simp only [h0, ne_eq, not_true_eq_false, if_false, hw]
  rw [send_ok_zero c fuel (msg i) _ hl (by exact h1)]
  simp [Nat.add_assoc]

/-- Witness of C8: two zero-length writes to address 0x21; the first completes,
the status read after the second start (read number 15) shows AF (bit 10). The
transfer returns `-EIO = -5`; the second message gets its repeated start and the stop
but no address byte. -/
theorem C8_witness :
    stdConfig.EIO ≠ 0 ∧ (1 : Nat) < 2 ∧
    (∃ b ∈ errorBits, Nat.testBit (1024 % 2 ^ 32) b = true) ∧
    (stm32_i2c_transfer stdConfig 0 (fun _ => ⟨0x21, 0, 0, 0⟩) 2
        (World.init (fun n => if n = 15 then 1024 else 0))).value = some (-5) ∧
    writesOf (stm32_i2c_transfer stdConfig 0 (fun _ => ⟨0x21, 0, 0, 0⟩) 2
        (World.init (fun n => if n = 15 then 1024 else 0))).world.trace =
      [(Reg.CR1, 257), (Reg.DR, 66), (Reg.CR1, 257), (Reg.CR1, 513)] := by
  have hbit : ∃ b ∈ errorBits, Nat.testBit (1024 % 2 ^ 32) b = true :=
    ⟨10, by decide, by decide⟩
  have hpre : (do i2c_dump; mutex_lock
                  transfer_loop stdConfig 0 (fun _ => ⟨0x21, 0, 0, 0⟩) 1 0 : Drv Int)
        (World.init (fun n => if n = 15 then 1024 else 0)) =
      .ret 0
        { input := fun n => if n = 15 then 1024 else 0,
          reads := 15,
          mem := fun _ => 0,
          trace :=
            dumpEvents (fun n => if n = 15 then 1024 else 0) 0 ++
              [Event.mutex_lock, Event.write32 .CR1 257, Event.read32 .SR1 0,
               Event.irq_disable, Event.write32 .DR 66, Event.read32 .SR1 0,
               Event.read32 .SR2 0] ++
              dumpEvents (fun n => if n = 15 then 1024 else 0) 9 ++ [Event.irq_enable] } := by
    simp only [bind_eq, i2c_dump_eq, mutex_lock, emit]
    rw [transfer_loop_zero_write _ _ _ _ _ _ (by decide) rfl (by decide) (by decide)]
    simp [transfer_loop, pure_eq, World.init, I2C_CR1_PE, I2C_CR1_START]
  have h := (C8_start_error_aborts stdConfig 0 (fun _ => ⟨0x21, 0, 0, 0⟩) 2 1
    (World.init (fun n => if n = 15 then 1024 else 0)) _
    (by decide) (by decide) hpre hbit).1
  refine ⟨by decide, by decide, hbit, ?_, ?_⟩
  · rw [h]; rfl
  · rw [h]; decide

/-- Address byte of a 7-bit address: below 256, upper seven bits the address,
bit 0 set for a read and clear for a write. -/
theorem addr_byte_7bit (a : Nat) (ha : a < 128) :
    (((a % 2 ^ 16) <<< 1 ||| 1) < 256 ∧ ((a % 2 ^ 16) <<< 1 ||| 1) >>> 1 = a ∧
      Nat.testBit ((a % 2 ^ 16) <<< 1 ||| 1) 0 = true) ∧
    ((a % 2 ^ 16) <<< 1 < 256 ∧ ((a % 2 ^ 16) <<< 1) >>> 1 = a ∧
      Nat.testBit ((a % 2 ^ 16) <<< 1) 0 = false) := by
  interval_cases a <;> decide

/-- C9: address phase. After a start whose SR1 value has no error-mask bit the
message loop runs `stm32_i2c_recv` for a message with the read flag and
`stm32_i2c_send` for one without it. The read path writes `(addr << 1) | 1` to
DR, the write path (after `irq_disable`) writes `addr << 1`; either then reads
SR1 once; if that value has an error-mask bit the path returns `-EIO` without
reading SR2, otherwise it reads SR2 once and goes on with its data phase. For a
7-bit address the byte is below 256, its upper seven bits are the address and
its bit 0 is 1 exactly on the read path. -/
theorem C9_address_phase (c : Config) (fuel : Nat) (msg : Nat → i2c_msg)
    (n i : Nat) (w : World) (m : i2c_msg) (wa : World) (hE : c.EIO ≠ 0)
    (h0 : (w.input w.reads % 2 ^ 32) &&& SR1_ERROR_MASK = 0) :
    transfer_loop c fuel msg (n + 1) i w =
      ((if (msg i).flags &&& c.I2C_M_READ ≠ 0 then stm32_i2c_recv c (msg i)
        else stm32_i2c_send c fuel (msg i)) >>= fun retval =>
          if retval ≠ 0 then pure retval else transfer_loop c fuel msg n (i + 1))
        { w with
          reads := w.reads + 1,
          trace := w.trace ++
            [Event.write32 .CR1 (I2C_CR1_PE ||| I2C_CR1_START),
             Event.read32 .SR1 (w.input w.reads % 2 ^ 32)] } ∧
    stm32_i2c_recv c m wa =
      (if (wa.input wa.reads % 2 ^ 32) &&& SR1_ERROR_MASK ≠ 0 then
        .ret (-(c.EIO : Int))
          { wa with
            reads := wa.reads + 1,
            trace := wa.trace ++
              [Event.write32 .DR ((m.addr % 2 ^ 16) <<< 1 ||| 1),
               Event.read32 .SR1 (wa.input wa.reads % 2 ^ 32)] }
      else
        (do recv_loop m m.length 0
            pure 0 : Drv Int)
          { wa with
            reads := wa.reads + 2,
            trace := wa.trace ++
              [Event.write32 .DR ((m.addr % 2 ^ 16) <<< 1 ||| 1),
               Event.read32 .SR1 (wa.input wa.reads % 2 ^ 32),
               Event.read32 .SR2 (wa.input (wa.reads + 1) % 2 ^ 32)] }) ∧
    stm32_i2c_send c fuel m wa =
      (if (wa.input wa.reads % 2 ^ 32) &&& SR1_ERROR_MASK ≠ 0 then
        .ret (-(c.EIO : Int))
          { wa with
            reads := wa.reads + 1,
            trace := wa.trace ++
              [Event.irq_disable,
               Event.write32 .DR ((m.addr % 2 ^ 16) <<< 1),
               Event.read32 .SR1 (wa.input wa.reads % 2 ^ 32)] }
      else
        (do i2c_dump
            send_loop fuel m m.length 0
            irq_enable
            pure 0 : Drv Int)
          { wa with
            reads := wa.reads + 2,
            trace := wa.trace ++
              [Event.irq_disable,
               Event.write32 .DR ((m.addr % 2 ^ 16) <<< 1),
               Event.read32 .SR1 (wa.input wa.reads % 2 ^ 32),
               Event.read32 .SR2 (wa.input (wa.reads + 1) % 2 ^ 32)] }) ∧
    (m.addr < 128 →
      (((m.addr % 2 ^ 16) <<< 1 ||| 1) < 256 ∧
        ((m.addr % 2 ^ 16) <<< 1 ||| 1) >>> 1 = m.addr ∧
        Nat.testBit ((m.addr % 2 ^ 16) <<< 1 ||| 1) 0 = true) ∧
      ((m.addr % 2 ^ 16) <<< 1 < 256 ∧
        ((m.addr % 2 ^ 16) <<< 1) >>> 1 = m.addr ∧
        Nat.testBit ((m.addr % 2 ^ 16) <<< 1) 0 = false)) := by
  have hE' : (c.EIO : Int) ≠ 0 := by exact_mod_cast hE
  refine ⟨?_, ?_, ?_, addr_byte_7bit _⟩
  · rw [transfer_loop, bind_eq, start_eq]
    simp only [h0, ne_eq, not_true_eq_false, if_false]
    by_cases hf : (msg i).flags &&& c.I2C_M_READ = 0
    · simp only [hf, not_true_eq_false, if_false]
    · simp only [hf, not_false_eq_true, if_true]
  · by_cases h1 : (wa.input wa.reads % 2 ^ 32) &&& SR1_ERROR_MASK = 0
    · rw [if_neg (not_not.mpr h1), stm32_i2c_recv, bind_eq, rx_address_ok c _ _ h1]
      simp
    · rw [if_pos h1, stm32_i2c_recv, bind_eq, rx_address_err c _ _ h1]
      simp [hE', pure_eq]
  · by_cases h1 : (wa.input wa.reads % 2 ^ 32) &&& SR1_ERROR_MASK = 0
    · rw [if_neg (not_not.mpr h1), stm32_i2c_send, bind_eq]
      simp only [irq_disable, emit, bind_eq]
      rw [tx_address_ok c _ _ (by exact h1)]
      simp only [ne_eq, not_true_eq_false, if_false, List.append_assoc, List.singleton_append]
      rfl
    · rw [if_pos h1, send_err c fuel m wa hE h1]

/-- Witness of C9: a zero-length read from address 0x21 on a bus that reads 0
from every register: the address byte is `0x43 = 67`, followed by one SR1 and
one SR2 read. -/
theorem C9_witness :
    stdConfig.EIO ≠ 0 ∧
    ((0 : Nat) % 2 ^ 32) &&& SR1_ERROR_MASK = 0 ∧
    (stm32_i2c_recv stdConfig ⟨0x21, 1, 0, 0⟩ (World.init (fun _ => 0))).value = some 0 ∧
    (stm32_i2c_recv stdConfig ⟨0x21, 1, 0, 0⟩ (World.init (fun _ => 0))).world.trace =
      [Event.write32 .DR 67, Event.read32 .SR1 0, Event.read32 .SR2 0] ∧
    writesOf (transfer_loop stdConfig 0 (fun _ => ⟨0x21, 1, 0, 0⟩) 1 0
        (World.init (fun _ => 0))).world.trace = [(Reg.CR1, 257), (Reg.DR, 67)] := by
  have h := C9_address_phase stdConfig 0 (fun _ => ⟨0x21, 1, 0, 0⟩) 0 0
    (World.init (fun _ => 0)) ⟨0x21, 1, 0, 0⟩ (World.init (fun _ => 0))
    (by decide) (by decide)
  refine ⟨by decide, by decide, ?_, ?_, ?_⟩
  · rw [h.2.1]; rfl
  · rw [h.2.1]; decide
  · rw [h.1]; decide

/-! ## Claim on the control dispatch -/

/-- A computation followed by `return 0` yields 0 whenever it returns. -/
theorem bind_pure_zero_value (m : Drv Int) (w : World) :
    ((m >>= fun _ => (pure 0 : Drv Int)) w).value = some 0 ∨
    ((m >>= fun _ => (pure 0 : Drv Int)) w).value = none := by
  rw [bind_eq]
  cases m w with
  | ret a w1 => left; rfl
  | trap w1 => right; rfl
  | spin w1 => right; rfl

/-- Whenever `stm32_i2c_ioctl` returns, it returns 0, whatever the command and
whatever the dispatched operation returned. -/
theorem ioctl_value (c : Config) (fuel : Nat) (f : Option file) (cmd : Nat)
    (vl : List va_item) (w : World) :
    (stm32_i2c_ioctl c fuel f cmd vl w).value = some 0 ∨
    (stm32_i2c_ioctl c fuel f cmd vl w).value = none := by
  cases f with
  | none => right; rfl
  | some fl =>
    simp only [stm32_i2c_ioctl]
    split
    · split <;> exact bind_pure_zero_value _ _
    · split
      · split <;> exact bind_pure_zero_value _ _
      · exact bind_pure_zero_value _ _

/-- C10 fails on the code: the dispatcher computes `retval` and then executes
`return 0`, so every call that returns yields 0. With the usual constants, `SET_FREQUENCY` of 400001 Hz makes
`stm32_i2c_set_freq` return `-EINVAL = -22` while the ioctl returns 0; an
unrecognised command (7) returns 0, not `-EINVAL`; and a transfer that hits a
bus error (AF after the start) returns `-EIO = -5` while the ioctl returns 0. -/
theorem C10_ioctl_discards_result :
    (∀ (c : Config) (fuel : Nat) (f : Option file) (cmd : Nat) (vl : List va_item)
        (w : World),
      (stm32_i2c_ioctl c fuel f cmd vl w).value = some 0 ∨
      (stm32_i2c_ioctl c fuel f cmd vl w).value = none) ∧
    (stm32_i2c_set_freq stdConfig stm32_i2c_pdata 400001
        (World.init (fun _ => 1))).value = some (-22) ∧
    (stm32_i2c_ioctl stdConfig 0 (some ⟨stm32_i2c_pdata⟩) stdConfig.I2C_SET_FREQUENCY
        [va_item.word 400001] (World.init (fun _ => 1))).value = some 0 ∧
    (7 ≠ stdConfig.I2C_TRANSFER ∧ 7 ≠ stdConfig.I2C_SET_FREQUENCY) ∧
    (stm32_i2c_ioctl stdConfig 0 (some ⟨stm32_i2c_pdata⟩) 7 []
        (World.init (fun _ => 1))).value = some 0 ∧
    (stm32_i2c_transfer stdConfig 0 (fun _ => ⟨0x21, 0, 0, 0⟩) 1
        (World.init (fun _ => 1024))).value = some (-5) ∧
    (stm32_i2c_ioctl stdConfig 0 (some ⟨stm32_i2c_pdata⟩) stdConfig.I2C_TRANSFER
        [va_item.ptr (fun _ => ⟨0x21, 0, 0, 0⟩), va_item.word 1]
        (World.init (fun _ => 1024))).value = some 0 := by
  refine ⟨ioctl_value, by decide, by decide, by decide, by decide, by decide, by decide⟩

/-! ## Trace discipline of the transfer engine -/

theorem avoids_pure {α : Type} (P : Event → Bool) (a : α) :
    Avoids P (pure a : Drv α) := fun w => ⟨[], by simp [pure_eq, Outcome.world], by simp⟩

theorem avoids_bind {α β : Type} (P : Event → Bool) (m : Drv α) (f : α → Drv β)
    (hm : Avoids P m) (hf : ∀ a, Avoids P (f a)) : Avoids P (m >>= f) := by
  intro w
  obtain ⟨es, he, hP⟩ := hm w
  rw [bind_eq]
  cases h : m w with
  | ret a w1 =>
    rw [h] at he
    obtain ⟨es2, he2, hP2⟩ := hf a w1
    refine ⟨es ++ es2, ?_, ?_⟩
    · simp only [] at he ⊢
      rw [he2]
      simp only [Outcome.world] at he
      rw [he, List.append_assoc]
    · intro e hmem
      rcases List.mem_append.mp hmem with h1 | h1
      · exact hP e h1
      · exact hP2 e h1
  | trap w1 => rw [h] at he; exact ⟨es, he, hP⟩
  | spin w1 => rw [h] at he; exact ⟨es, he, hP⟩

theorem avoids_emit (P : Event → Bool) (e : Event) (h : P e = false) :
    Avoids P (emit e) := fun w =>
  ⟨[e], rfl, by simpa using h⟩

theorem avoids_read32 (P : Event → Bool) (r : Reg)
    (h : ∀ v, P (Event.read32 r v) = false) : Avoids P (read32 r) := fun w =>
  ⟨[Event.read32 r (w.input w.reads % 2 ^ 32)], rfl, by simpa using h _⟩

theorem avoids_write32 (P : Event → Bool) (r : Reg) (v : Nat)
    (h : ∀ x, P (Event.write32 r x) = false) : Avoids P (write32 r v) :=
  avoids_emit P _ (h _)

theorem avoids_load8 (P : Event → Bool) (a : Nat)
    (h : ∀ x, P (Event.load a x) = false) : Avoids P (load8 a) := fun w =>
  ⟨[Event.load a (w.mem a % 256)], rfl, by simpa using h _⟩

theorem avoids_store8 (P : Event → Bool) (a v : Nat)
    (h : ∀ x, P (Event.store a x) = false) : Avoids P (store8 a v) := fun w =>
  ⟨[Event.store a (v % 256)], rfl, by simpa using h _⟩

theorem avoids_ite {α : Type} (P : Event → Bool) (p : Prop) [Decidable p]
    (m k : Drv α) (hm : Avoids P m) (hk : Avoids P k) :
    Avoids P (if p then m else k) := by
  split
  · exact hm
  · exact hk

theorem accessFree_isLock : AccessFree isLock :=
  ⟨fun _ _ => rfl, fun _ _ => rfl, fun _ _ => rfl, fun _ _ => rfl⟩

theorem accessFree_isIrq : AccessFree isIrq :=
  ⟨fun _ _ => rfl, fun _ _ => rfl, fun _ _ => rfl, fun _ _ => rfl⟩

theorem avoids_i2c_dump (P : Event → Bool) (hP : AccessFree P) : Avoids P i2c_dump := by
  unfold i2c_dump
  refine avoids_bind P _ _ (avoids_read32 P _ (hP.1 _)) fun _ => ?_
  refine avoids_bind P _ _ (avoids_read32 P _ (hP.1 _)) fun _ => ?_
  refine avoids_bind P _ _ (avoids_read32 P _ (hP.1 _)) fun _ => ?_
  refine avoids_bind P _ _ (avoids_read32 P _ (hP.1 _)) fun _ => ?_
  refine avoids_bind P _ _ (avoids_read32 P _ (hP.1 _)) fun _ => ?_
  refine avoids_bind P _ _ (avoids_read32 P _ (hP.1 _)) fun _ => ?_
  exact avoids_pure P ()

theorem avoids_start (P : Event → Bool) (hP : AccessFree P) (c : Config) :
    Avoids P (stm32_i2c_generate_start_condition c) := by
  unfold stm32_i2c_generate_start_condition
  refine avoids_bind P _ _ (avoids_write32 P _ _ (hP.2.1 _)) fun _ => ?_
  refine avoids_bind P _ _ (avoids_read32 P _ (hP.1 _)) fun _ => ?_
  exact avoids_ite P _ _ _ (avoids_pure P _) (avoids_pure P _)

theorem avoids_stop (P : Event → Bool) (hP : AccessFree P) :
    Avoids P stm32_i2c_generate_stop_condition :=
  avoids_write32 P _ _ (hP.2.1 _)

theorem avoids_rx_address (P : Event → Bool) (hP : AccessFree P) (c : Config) (addr : Nat) :
    Avoids P (stm32_i2c_send_rx_address c addr) := by
  unfold stm32_i2c_send_rx_address
  refine avoids_bind P _ _ (avoids_write32 P _ _ (hP.2.1 _)) fun _ => ?_
  refine avoids_bind P _ _ (avoids_read32 P _ (hP.1 _)) fun _ => ?_
  refine avoids_ite P _ _ _ (avoids_pure P _) ?_
  exact avoids_bind P _ _ (avoids_read32 P _ (hP.1 _)) fun _ => avoids_pure P _

theorem avoids_tx_address (P : Event → Bool) (hP : AccessFree P) (c : Config) (addr : Nat) :
    Avoids P (stm32_i2c_send_tx_address c addr) := by
  unfold stm32_i2c_send_tx_address
  refine avoids_bind P _ _ (avoids_write32 P _ _ (hP.2.1 _)) fun _ => ?_
  refine avoids_bind P _ _ (avoids_read32 P _ (hP.1 _)) fun _ => ?_
  refine avoids_ite P _ _ _ (avoids_pure P _) ?_
  exact avoids_bind P _ _ (avoids_read32 P _ (hP.1 _)) fun _ => avoids_pure P _

theorem avoids_recv_loop (P : Event → Bool) (hP : AccessFree P) (m : i2c_msg) :
    ∀ n i, Avoids P (recv_loop m n i) := by
  intro n
  induction n with
  | zero => intro i; exact avoids_pure P ()
  | succ n ih =>
    intro i
    rw [recv_loop]
    refine avoids_bind P _ _ (avoids_read32 P _ (hP.1 _)) fun _ => ?_
    refine avoids_bind P _ _ (avoids_store8 P _ _ (hP.2.2.2 _)) fun _ => ?_
    exact ih (i + 1)

theorem avoids_wait_txe (P : Event → Bool) (hP : AccessFree P) :
    ∀ fuel, Avoids P (wait_txe fuel) := by
  intro fuel
  induction fuel with
  | zero => exact fun w => ⟨[], by simp [wait_txe, Outcome.world], by simp⟩
  | succ n ih =>
    rw [wait_txe]
    refine avoids_bind P _ _ (avoids_read32 P _ (hP.1 _)) fun _ => ?_
    exact avoids_ite P _ _ _ (avoids_pure P _) ih

theorem avoids_send_loop (P : Event → Bool) (hP : AccessFree P) (fuel : Nat)
    (m : i2c_msg) : ∀ n i, Avoids P (send_loop fuel m n i) := by
  intro n
  induction n with
  | zero => intro i; exact avoids_pure P ()
  | succ n ih =>
    intro i
    rw [send_loop]
    refine avoids_bind P _ _ (avoids_wait_txe P hP fuel) fun _ => ?_
    refine avoids_bind P _ _ (avoids_load8 P _ (hP.2.2.1 _)) fun _ => ?_
    refine avoids_bind P _ _ (avoids_write32 P _ _ (hP.2.1 _)) fun _ => ?_
    exact ih (i + 1)

theorem avoids_recv (P : Event → Bool) (hP : AccessFree P) (c : Config) (m : i2c_msg) :
    Avoids P (stm32_i2c_recv c m) := by
  unfold stm32_i2c_recv
  refine avoids_bind P _ _ (avoids_rx_address P hP c _) fun _ => ?_
  refine avoids_ite P _ _ _ (avoids_pure P _) ?_
  exact avoids_bind P _ _ (avoids_recv_loop P hP m _ _) fun _ => avoids_pure P _

/-- The write path emits no lock event. -/
theorem avoids_send_lock (c : Config) (fuel : Nat) (m : i2c_msg) :
    Avoids isLock (stm32_i2c_send c fuel m) := by
  unfold stm32_i2c_send
  refine avoids_bind _ _ _ (avoids_emit _ _ rfl) fun _ => ?_
  refine avoids_bind _ _ _ (avoids_tx_address _ accessFree_isLock c _) fun _ => ?_
  refine avoids_ite _ _ _ _ (avoids_pure _ _) ?_
  refine avoids_bind _ _ _ (avoids_i2c_dump _ accessFree_isLock) fun _ => ?_
  refine avoids_bind _ _ _ (avoids_send_loop _ accessFree_isLock fuel m _ _) fun _ => ?_
  exact avoids_bind _ _ _ (avoids_emit _ _ rfl) fun _ => avoids_pure _ _

/-- The message loop emits no lock event. -/
theorem avoids_transfer_loop (c : Config) (fuel : Nat) (msg : Nat → i2c_msg) :
    ∀ n i, Avoids isLock (transfer_loop c fuel msg n i) := by
  intro n
  induction n with
  | zero => intro i; exact avoids_pure _ _
  | succ n ih =>
    intro i
    rw [transfer_loop]
    refine avoids_bind _ _ _ (avoids_start _ accessFree_isLock c) fun _ => ?_
    refine avoids_ite _ _ _ _ (avoids_pure _ _) ?_
    refine avoids_ite _ _ _ _ ?_ ?_
    · refine avoids_bind _ _ _ (avoids_recv _ accessFree_isLock c _) fun _ => ?_
      exact avoids_ite _ _ _ _ (avoids_pure _ _) (ih (i + 1))
    · refine avoids_bind _ _ _ (avoids_send_lock c fuel _) fun _ => ?_
      exact avoids_ite _ _ _ _ (avoids_pure _ _) (ih (i + 1))

/-- The events of a register dump are neither lock events nor writes. -/
theorem dumpEvents_plain (input : Nat → Nat) (r : Nat) :
    ∀ e ∈ dumpEvents input r, isLock e = false ∧ isWrite e = false := by
  intro e he
  simp only [dumpEvents, List.mem_cons, List.mem_singleton, List.not_mem_nil, or_false] at he
  rcases he with rfl | rfl | rfl | rfl | rfl | rfl <;> exact ⟨rfl, rfl⟩

/-- Shape of a transfer that returns: the register dump, the lock, events that
are not lock events, the stop condition, the unlock. -/
theorem transfer_bracket (c : Config) (fuel : Nat) (msg : Nat → i2c_msg)
    (count : Nat) (w w1 : World) (a : Int) (hc : count ≠ 0)
    (h : stm32_i2c_transfer c fuel msg count w = .ret a w1) :
    ∃ mid : List Event,
      w1.trace = w.trace ++
        (dumpEvents w.input w.reads ++ [Event.mutex_lock] ++ mid ++
          [Event.write32 .CR1 (I2C_CR1_PE ||| I2C_CR1_STOP), Event.mutex_unlock]) ∧
      ∀ e ∈ mid, isLock e = false := by
  rw [stm32_i2c_transfer, if_neg hc, bind_eq, i2c_dump_eq] at h
  simp only [bind_eq, mutex_lock, emit] at h
  obtain ⟨es, he, hP⟩ := avoids_transfer_loop c fuel msg count 0
    { w with reads := w.reads + 6,
             trace := w.trace ++ dumpEvents w.input w.reads ++ [Event.mutex_lock] }
  cases hl : transfer_loop c fuel msg count 0
    { w with reads := w.reads + 6,
             trace := w.trace ++ dumpEvents w.input w.reads ++ [Event.mutex_lock] } with
  | ret r w2 =>
    rw [hl] at h he
    simp only [i2c_dump_eq, stop_eq, mutex_unlock, emit, pure_eq] at h
    simp only [Outcome.world] at he
    injection h with _ hw
    subst hw
    refine ⟨es ++ dumpEvents w2.input w2.reads, ?_, ?_⟩
    · simp only [he, List.append_assoc, List.cons_append, List.nil_append,
        List.singleton_append]
    · intro e hmem
      rcases List.mem_append.mp hmem with h1 | h1
      · exact hP e h1
      · exact (dumpEvents_plain _ _ e h1).1
  | trap w2 => rw [hl] at h; exact Outcome.noConfusion h
  | spin w2 => rw [hl] at h; exact Outcome.noConfusion h

/-! ## Two callers in one trace -/

theorem eventsOf_append (b : Bool) (t1 t2 : List (Bool × Event)) :
    eventsOf b (t1 ++ t2) = eventsOf b t1 ++ eventsOf b t2 := by
  simp [eventsOf, List.filter_append]

theorem eventsOf_cons_self (b : Bool) (e : Event) (t : List (Bool × Event)) :
    eventsOf b ((b, e) :: t) = e :: eventsOf b t := by
  simp [eventsOf]

theorem mem_eventsOf (b : Bool) (e : Event) (t : List (Bool × Event)) :
    e ∈ eventsOf b t ↔ (b, e) ∈ t := by
  simp only [eventsOf, List.mem_map, List.mem_filter, beq_iff_eq]
  constructor
  · rintro ⟨⟨b1, e1⟩, ⟨hm, hb⟩, he⟩
    simp only at hb he
    subst hb; subst he
    exact hm
  · intro h
    exact ⟨(b, e), ⟨h, rfl⟩, rfl⟩

/-- An element that ends a list and occurs nowhere before its end is followed
by nothing in any split of the list at that element. -/
theorem nil_of_split_at_last {α : Type} (u : α) (xs ys zs : List α)
    (h : xs ++ u :: ys = zs ++ [u]) (hu : u ∉ zs) : ys = [] := by
  rcases List.eq_nil_or_concat ys with rfl | ⟨l, b, rfl⟩
  · rfl
  · exfalso
    have h2 : (xs ++ u :: l) ++ [b] = zs ++ [u] := by
      simpa [List.concat_eq_append] using h
    have h3 := (List.append_inj' h2 rfl).1
    apply hu
    rw [← h3]
    simp

/-- Two returning calls in one trace, the second acquiring the lock after the
first released it: the first call has no event after its unlock, its stop
condition lies before the unlock, and the second call writes no register before
the first call's unlock. -/
theorem serialized_calls (t1 t2 : List (Bool × Event))
    (preA midA preB midB : List Event) (s : Event)
    (hs : isWrite s = true)
    (hA : eventsOf false (t1 ++ (false, Event.mutex_unlock) :: t2) =
      preA ++ [Event.mutex_lock] ++ midA ++ [s, Event.mutex_unlock])
    (hB : eventsOf true (t1 ++ (false, Event.mutex_unlock) :: t2) =
      preB ++ [Event.mutex_lock] ++ midB ++ [s, Event.mutex_unlock])
    (hpreA : ∀ e ∈ preA, isLock e = false) (hmidA : ∀ e ∈ midA, isLock e = false)
    (hpreB : ∀ e ∈ preB, isLock e = false ∧ isWrite e = false)
    (hmidB : ∀ e ∈ midB, isLock e = false)
    (hser : (true, Event.mutex_lock) ∈ t2) :
    eventsOf false t2 = [] ∧ (false, s) ∈ t1 ∧
    ∀ e ∈ eventsOf true t1, isWrite e = false := by
  have hsl : isLock s = false := by cases s <;> simp_all [isWrite, isLock]
  rw [eventsOf_append, eventsOf_cons_self] at hA
  have hB' : eventsOf true t1 ++ eventsOf true t2 =
      preB ++ Event.mutex_lock :: (midB ++ [s, Event.mutex_unlock]) := by
    rw [eventsOf_append] at hB
    simpa [eventsOf] using hB
  -- the first call: nothing after its unlock
  have hA2 : eventsOf false t1 ++ Event.mutex_unlock :: eventsOf false t2 =
      (preA ++ [Event.mutex_lock] ++ midA ++ [s]) ++ [Event.mutex_unlock] := by
    rw [hA]; simp
  have hnot : Event.mutex_unlock ∉ preA ++ [Event.mutex_lock] ++ midA ++ [s] := by
    intro hm
    simp only [List.mem_append, List.mem_singleton] at hm
    rcases hm with ((hm | hm) | hm) | hm
    · exact Bool.noConfusion ((hpreA _ hm).symm.trans rfl)
    · exact Event.noConfusion hm
    · exact Bool.noConfusion ((hmidA _ hm).symm.trans rfl)
    · rw [← hm] at hsl; exact Bool.noConfusion hsl
  have hnil := nil_of_split_at_last _ _ _ _ hA2 hnot
  refine ⟨hnil, ?_, ?_⟩
  · rw [hnil] at hA2
    have h3 := (List.append_inj' hA2 rfl).1
    rw [← mem_eventsOf, h3]
    simp
  · -- the second call: before the first's unlock it is still in its dump
    have hlock2 : Event.mutex_lock ∈ eventsOf true t2 := (mem_eventsOf _ _ _).mpr hser
    rcases List.append_eq_append_iff.mp hB' with ⟨a', hpre, _⟩ | ⟨c', h1, h2⟩
    · intro e he
      exact (hpreB e (by rw [hpre]; exact List.mem_append_left _ he)).2
    · cases c' with
      | nil =>
        intro e he
        rw [h1, List.append_nil] at he
        exact (hpreB e he).2
      | cons x c'' =>
        exfalso
        simp only [List.cons_append, List.cons.injEq] at h2
        have hin : Event.mutex_lock ∈ midB ++ [s, Event.mutex_unlock] := by
          rw [h2.2]; exact List.mem_append_right _ hlock2
        simp only [List.mem_append, List.mem_cons, List.mem_singleton, List.not_mem_nil,
          or_false] at hin
        rcases hin with hm | hm | hm
        · exact Bool.noConfusion ((hmidB _ hm).symm.trans rfl)
        · rw [← hm] at hs; exact Bool.noConfusion hs
        · exact Event.noConfusion hm

/-- A run with a value is a return. -/
theorem ret_of_value {α : Type} (o : Outcome α) (a : α) (h : o.value = some a) :
    o = .ret a o.world := by
  cases o with
  | ret x w => simp only [Outcome.value, Option.some.injEq] at h; subst h; rfl
  | trap w => exact Option.noConfusion h
  | spin w => exact Option.noConfusion h

/-- C11: lock and stop bracket. For a non-empty message sequence and any
register-read behaviour under which `stm32_i2c_transfer` returns (with success
or with an error), the events of the call are: the six reads of the register
dump (no write among them), the lock, events among which there is neither a
lock nor an unlock, the stop condition `CR1 := PE|STOP`, and the unlock as the
last event. So the lock is taken once, before the first register write, and
released once, as the last action; every register write lies between the two;
and the last write before the release is the stop. Hence, for a second returning
call whose events are interleaved with those of the first in one trace in which
the second call's lock follows the first call's unlock: the first call has no
event after its unlock, its stop lies before it, and the second call writes no
register before it. -/
theorem C11_lock_stop_bracket (c : Config) (fuel : Nat) (msg : Nat → i2c_msg)
    (count : Nat) (w w1 : World) (a : Int) (hc : count ≠ 0)
    (h : stm32_i2c_transfer c fuel msg count w = .ret a w1) :
    (∃ mid : List Event,
      w1.trace = w.trace ++
        (dumpEvents w.input w.reads ++ [Event.mutex_lock] ++ mid ++
          [Event.write32 .CR1 (I2C_CR1_PE ||| I2C_CR1_STOP), Event.mutex_unlock]) ∧
      (∀ e ∈ dumpEvents w.input w.reads, isLock e = false ∧ isWrite e = false) ∧
      (∀ e ∈ mid, isLock e = false)) ∧
    (∀ (fuelB : Nat) (msgB : Nat → i2c_msg) (countB : Nat) (wB wB1 : World) (b : Int)
        (t1 t2 : List (Bool × Event)),
      countB ≠ 0 →
      stm32_i2c_transfer c fuelB msgB countB wB = .ret b wB1 →
      w.trace ++ eventsOf false (t1 ++ (false, Event.mutex_unlock) :: t2) = w1.trace →
      wB.trace ++ eventsOf true (t1 ++ (false, Event.mutex_unlock) :: t2) = wB1.trace →
      (true, Event.mutex_lock) ∈ t2 →
      eventsOf false t2 = [] ∧
      (false, Event.write32 .CR1 (I2C_CR1_PE ||| I2C_CR1_STOP)) ∈ t1 ∧
      ∀ e ∈ eventsOf true t1, isWrite e = false) := by
  obtain ⟨mid, hshape, hmid⟩ := transfer_bracket c fuel msg count w w1 a hc h
  refine ⟨⟨mid, hshape, dumpEvents_plain _ _, hmid⟩, ?_⟩
  intro fuelB msgB countB wB wB1 b t1 t2 hcB hB htA htB hser
  obtain ⟨midB, hshapeB, hmidB⟩ := transfer_bracket c fuelB msgB countB wB wB1 b hcB hB
  rw [hshape] at htA
  rw [hshapeB] at htB
  exact serialized_calls t1 t2 (dumpEvents w.input w.reads) mid
    (dumpEvents wB.input wB.reads) midB _ rfl
    (List.append_cancel_left htA) (List.append_cancel_left htB)
    (fun e he => (dumpEvents_plain _ _ e he).1) hmid (dumpEvents_plain _ _) hmidB hser

/-- A transfer of one zero-length write message with clean status reads. -/
theorem transfer_zero_write (c : Config) (fuel : Nat) (msg : Nat → i2c_msg) (w : World)
    (hw : (msg 0).flags &&& c.I2C_M_READ = 0) (hl : (msg 0).length = 0)
    (h0 : (w.input (w.reads + 6) % 2 ^ 32) &&& SR1_ERROR_MASK = 0)
    (h1 : (w.input (w.reads + 7) % 2 ^ 32) &&& SR1_ERROR_MASK = 0) :
    stm32_i2c_transfer c fuel msg 1 w = .ret 0
      { w with
        reads := w.reads + 21,
        trace := w.trace ++
          (dumpEvents w.input w.reads ++
           [Event.mutex_lock,
            Event.write32 .CR1 (I2C_CR1_PE ||| I2C_CR1_START),
            Event.read32 .SR1 (w.input (w.reads + 6) % 2 ^ 32),
            Event.irq_disable,
            Event.write32 .DR (((msg 0).addr % 2 ^ 16) <<< 1),
            Event.read32 .SR1 (w.input (w.reads + 7) % 2 ^ 32),
            Event.read32 .SR2 (w.input (w.reads + 8) % 2 ^ 32)] ++
           dumpEvents w.input (w.reads + 9) ++
           [Event.irq_enable] ++
           dumpEvents w.input (w.reads + 15) ++
           [Event.write32 .CR1 (I2C_CR1_PE ||| I2C_CR1_STOP),
            Event.mutex_unlock]) } := by
  rw [stm32_i2c_transfer, if_neg (by decide), bind_eq, i2c_dump_eq]
  simp only [bind_eq, mutex_lock, emit]
  rw [transfer_loop_zero_write c fuel msg 0 0 _ hw hl (by exact h0) (by exact h1)]
  simp only [transfer_loop, pure_eq, i2c_dump_eq, stop_eq, mutex_unlock, emit]
  simp [Nat.add_assoc]

/-- A transfer of one write message whose address phase reads an error-mask bit:
the call returns `-EIO`; between `irq_disable` and the return there is no
`irq_enable`. -/
theorem transfer_write_address_error (c : Config) (fuel : Nat) (msg : Nat → i2c_msg)
    (w : World) (hE : c.EIO ≠ 0)
    (hw : (msg 0).flags &&& c.I2C_M_READ = 0)
    (h0 : (w.input (w.reads + 6) % 2 ^ 32) &&& SR1_ERROR_MASK = 0)
    (h1 : (w.input (w.reads + 7) % 2 ^ 32) &&& SR1_ERROR_MASK ≠ 0) :
    stm32_i2c_transfer c fuel msg 1 w = .ret (-(c.EIO : Int))
      { w with
        reads := w.reads + 14,
        trace := w.trace ++
          (dumpEvents w.input w.reads ++
           [Event.mutex_lock,
            Event.write32 .CR1 (I2C_CR1_PE ||| I2C_CR1_START),
            Event.read32 .SR1 (w.input (w.reads + 6) % 2 ^ 32),
            Event.irq_disable,
            Event.write32 .DR (((msg 0).addr % 2 ^ 16) <<< 1),
            Event.read32 .SR1 (w.input (w.reads + 7) % 2 ^ 32)] ++
           dumpEvents w.input (w.reads + 8) ++
           [Event.write32 .CR1 (I2C_CR1_PE ||| I2C_CR1_STOP),
            Event.mutex_unlock]) } := by
  have hE' : (c.EIO : Int) ≠ 0 := by exact_mod_cast hE
  rw [stm32_i2c_transfer, if_neg (by decide), bind_eq, i2c_dump_eq]
  simp only [bind_eq, mutex_lock, emit]
  rw [transfer_loop_succ, start_eq]
  simp only [h0, ne_eq, not_true_eq_false, if_false, hw]
  rw [send_err c fuel (msg 0) _ hE (by exact h1)]
  simp only [ne_eq, neg_eq_zero, hE', not_false_eq_true, if_true, i2c_dump_eq, stop_eq,
    mutex_unlock, emit, pure_eq]
  simp [Nat.add_assoc]

/-- Witness of C11: a first call that fails (one zero-length write to 0x21, AF
in the status read after the address byte, result `-EIO = -5`) and a second
call that succeeds (one zero-length write to 0x20). In the trace the register
dump of the second call runs while the first call holds the lock, and the
second call's lock follows the first call's unlock. -/
theorem C11_witness :
    (1 : Nat) ≠ 0 ∧
    (stm32_i2c_transfer stdConfig 0 (fun _ => ⟨0x21, 0, 0, 0⟩) 1
        (World.init (fun n => if n = 7 then 1024 else 0))).value = some (-5) ∧
    (stm32_i2c_transfer stdConfig 0 (fun _ => ⟨0x20, 0, 0, 0⟩) 1
        (World.init (fun _ => 0))).value = some 0 ∧
    eventsOf false
        (tagged true
          ([Event.mutex_lock, Event.write32 .CR1 257, Event.read32 .SR1 0,
            Event.irq_disable, Event.write32 .DR 64, Event.read32 .SR1 0,
            Event.read32 .SR2 0] ++
           dumpEvents (fun _ => 0) 9 ++ [Event.irq_enable] ++ dumpEvents (fun _ => 0) 15 ++
           [Event.write32 .CR1 513, Event.mutex_unlock])) = [] ∧
    (false, Event.write32 .CR1 (I2C_CR1_PE ||| I2C_CR1_STOP)) ∈
        (tagged false
            (dumpEvents (fun n => if n = 7 then 1024 else 0) 0 ++
              [Event.mutex_lock, Event.write32 .CR1 257, Event.read32 .SR1 0,
               Event.irq_disable]) ++
          tagged true (dumpEvents (fun _ => 0) 0) ++
          tagged false
            ([Event.write32 .DR 66, Event.read32 .SR1 1024] ++
              dumpEvents (fun n => if n = 7 then 1024 else 0) 8 ++
              [Event.write32 .CR1 513])) ∧
    ∀ e ∈ eventsOf true
        (tagged false
            (dumpEvents (fun n => if n = 7 then 1024 else 0) 0 ++
              [Event.mutex_lock, Event.write32 .CR1 257, Event.read32 .SR1 0,
               Event.irq_disable]) ++
          tagged true (dumpEvents (fun _ => 0) 0) ++
          tagged false
            ([Event.write32 .DR 66, Event.read32 .SR1 1024] ++
              dumpEvents (fun n => if n = 7 then 1024 else 0) 8 ++
              [Event.write32 .CR1 513])),
      isWrite e = false := by
  have hA := transfer_write_address_error stdConfig 0 (fun _ => ⟨0x21, 0, 0, 0⟩)
    (World.init (fun n => if n = 7 then 1024 else 0)) (by decide) (by decide)
    (by decide) (by decide)
  have hB := transfer_zero_write stdConfig 0 (fun _ => ⟨0x20, 0, 0, 0⟩)
    (World.init (fun _ => 0)) (by decide) rfl (by decide) (by decide)
  have h := (C11_lock_stop_bracket stdConfig 0 (fun _ => ⟨0x21, 0, 0, 0⟩) 1
    (World.init (fun n => if n = 7 then 1024 else 0)) _ _ (by decide) hA).2
    0 (fun _ => ⟨0x20, 0, 0, 0⟩) 1 (World.init (fun _ => 0)) _ _
    (tagged false
        (dumpEvents (fun n => if n = 7 then 1024 else 0) 0 ++
          [Event.mutex_lock, Event.write32 .CR1 257, Event.read32 .SR1 0,
           Event.irq_disable]) ++
      tagged true (dumpEvents (fun _ => 0) 0) ++
      tagged false
        ([Event.write32 .DR 66, Event.read32 .SR1 1024] ++
          dumpEvents (fun n => if n = 7 then 1024 else 0) 8 ++
          [Event.write32 .CR1 513]))
    (tagged true
      ([Event.mutex_lock, Event.write32 .CR1 257, Event.read32 .SR1 0,
        Event.irq_disable, Event.write32 .DR 64, Event.read32 .SR1 0,
        Event.read32 .SR2 0] ++
       dumpEvents (fun _ => 0) 9 ++ [Event.irq_enable] ++ dumpEvents (fun _ => 0) 15 ++
       [Event.write32 .CR1 513, Event.mutex_unlock]))
    (by decide) hB (by decide) (by decide) (by decide)
  refine ⟨by decide, ?_, ?_, h⟩
  · rw [hA]; rfl
  · rw [hB]; rfl

/-! ## Interrupt mask on the write path -/

/-- Write path with a clean address phase: whenever it returns, its events are
`irq_disable`, events that do not touch the interrupt mask, and `irq_enable`. -/
theorem send_ok_irq (c : Config) (fuel : Nat) (m : i2c_msg) (w w1 : World) (r : Int)
    (h : (w.input w.reads % 2 ^ 32) &&& SR1_ERROR_MASK = 0)
    (hr : stm32_i2c_send c fuel m w = .ret r w1) :
    ∃ es : List Event,
      w1.trace = w.trace ++ ([Event.irq_disable] ++ es ++ [Event.irq_enable]) ∧
      ∀ e ∈ es, isIrq e = false := by
  rw [stm32_i2c_send, bind_eq] at hr
  simp only [irq_disable, emit, bind_eq] at hr
  rw [tx_address_ok c m.addr _ (by exact h)] at hr
  simp only [ne_eq, not_true_eq_false, if_false, bind_eq, i2c_dump_eq, irq_enable, emit,
    pure_eq] at hr
  obtain ⟨es, he, hP⟩ := avoids_send_loop isIrq accessFree_isIrq fuel m m.length 0
    { w with
      reads := w.reads + 2 + 6,
      trace := w.trace ++ [Event.irq_disable] ++
        [Event.write32 .DR ((m.addr % 2 ^ 16) <<< 1),
         Event.read32 .SR1 (w.input w.reads % 2 ^ 32),
         Event.read32 .SR2 (w.input (w.reads + 1) % 2 ^ 32)] ++
        dumpEvents w.input (w.reads + 2) }
  cases hl : send_loop fuel m m.length 0
    { w with
      reads := w.reads + 2 + 6,
      trace := w.trace ++ [Event.irq_disable] ++
        [Event.write32 .DR ((m.addr % 2 ^ 16) <<< 1),
         Event.read32 .SR1 (w.input w.reads % 2 ^ 32),
         Event.read32 .SR2 (w.input (w.reads + 1) % 2 ^ 32)] ++
        dumpEvents w.input (w.reads + 2) } with
  | ret u w2 =>
    rw [hl] at hr he
    simp only [Outcome.world] at he
    injection hr with _ hw
    subst hw
    refine ⟨[Event.write32 .DR ((m.addr % 2 ^ 16) <<< 1),
         Event.read32 .SR1 (w.input w.reads % 2 ^ 32),
         Event.read32 .SR2 (w.input (w.reads + 1) % 2 ^ 32)] ++
        dumpEvents w.input (w.reads + 2) ++ es, ?_, ?_⟩
    · simp only [he, List.append_assoc, List.cons_append, List.nil_append,
        List.singleton_append]
    · intro e hmem
      simp only [List.mem_append, List.mem_cons, List.mem_singleton, List.not_mem_nil,
        or_false] at hmem
      rcases hmem with ((rfl | rfl | rfl) | h1) | h1
      · rfl
      · rfl
      · rfl
      · simp only [dumpEvents, List.mem_cons, List.mem_singleton, List.not_mem_nil,
          or_false] at h1
        rcases h1 with rfl | rfl | rfl | rfl | rfl | rfl <;> rfl
      · exact hP e h1
  | trap w2 => rw [hl] at hr; exact Outcome.noConfusion hr
  | spin w2 => rw [hl] at hr; exact Outcome.noConfusion hr

/-- C12 fails on the code: when the address phase of a write message reads an
error-mask bit, `stm32_i2c_send` returns `-EIO` straight after the status
check, before the `irq_enable` that ends the success path. With the usual
constants, a zero-length write to 0x21 and AF (bit 10) in the status read after
the address byte: `stm32_i2c_send` returns `-5` with events `irq_disable`,
`DR := 0x42`, the SR1 read, and nothing else; `stm32_i2c_transfer` returns `-5`
with one `irq_disable` and no `irq_enable` in its trace. On a bus that
acknowledges, the same transfer has one of each. -/
theorem C12_address_error_skips_irq_enable :
    (stm32_i2c_send stdConfig 0 ⟨0x21, 0, 0, 0⟩ (World.init (fun _ => 1024))).value =
      some (-5) ∧
    (stm32_i2c_send stdConfig 0 ⟨0x21, 0, 0, 0⟩ (World.init (fun _ => 1024))).world.trace =
      [Event.irq_disable, Event.write32 .DR 66, Event.read32 .SR1 1024] ∧
    (stm32_i2c_transfer stdConfig 0 (fun _ => ⟨0x21, 0, 0, 0⟩) 1
        (World.init (fun n => if n = 7 then 1024 else 0))).value = some (-5) ∧
    disables (stm32_i2c_transfer stdConfig 0 (fun _ => ⟨0x21, 0, 0, 0⟩) 1
        (World.init (fun n => if n = 7 then 1024 else 0))).world.trace = 1 ∧
    enables (stm32_i2c_transfer stdConfig 0 (fun _ => ⟨0x21, 0, 0, 0⟩) 1
        (World.init (fun n => if n = 7 then 1024 else 0))).world.trace = 0 ∧
    (stm32_i2c_transfer stdConfig 0 (fun _ => ⟨0x21, 0, 0, 0⟩) 1
        (World.init (fun _ => 0))).value = some 0 ∧
    disables (stm32_i2c_transfer stdConfig 0 (fun _ => ⟨0x21, 0, 0, 0⟩) 1
        (World.init (fun _ => 0))).world.trace = 1 ∧
    enables (stm32_i2c_transfer stdConfig 0 (fun _ => ⟨0x21, 0, 0, 0⟩) 1
        (World.init (fun _ => 0))).world.trace = 1 := by
  have hS := send_err stdConfig 0 ⟨0x21, 0, 0, 0⟩ (World.init (fun _ => 1024))
    (by decide) (by decide)
  have hA := transfer_write_address_error stdConfig 0 (fun _ => ⟨0x21, 0, 0, 0⟩)
    (World.init (fun n => if n = 7 then 1024 else 0)) (by decide) (by decide)
    (by decide) (by decide)
  have hB := transfer_zero_write stdConfig 0 (fun _ => ⟨0x21, 0, 0, 0⟩)
    (World.init (fun _ => 0)) (by decide) rfl (by decide) (by decide)
  rw [hS, hA, hB]
  refine ⟨rfl, by decide, rfl, by decide, by decide, rfl, by decide, by decide⟩

end Stm32I2c
